import Mathlib

/-!
# Player Management client: request construction and dispatch

A shallow embedding of `lib/playerManagementAPI.js`.  JavaScript strings are
`String`s (processed as lists of characters), the closure returned by
`module.exports` is a `Client` record (the configuration `apiInfo`, the account
URL `url` computed when the closure is created, and the mutable `customHeaders`
array), the request descriptor is a record, and the effects of an operation
(console output, the call of a transport verb with its completion handler, the
call of the caller's callback, a thrown exception) are explicit.

The Node library functions `path.join` and `url.resolve`, on which the account
URL is built, are modelled in the first section.
-/

namespace PlayerManagement

/-! ## Node library: `path.join` (POSIX) and `url.resolve` -/

/-- JavaScript `s.split('/')` on a list of characters. -/
def splitSlash : List Char → List (List Char)
  | [] => [[]]
  | c :: cs =>
    if c = '/' then [] :: splitSlash cs
    else
      match splitSlash cs with
      | [] => [[c]]
      | s :: ss => (c :: s) :: ss

/-- JavaScript `segments.join('/')`. -/
def joinSlash : List (List Char) → List Char
  | [] => []
  | [s] => s
  | s :: ss => s ++ '/' :: joinSlash ss

/-- Segment form of `normalizeString` of Node's `path` module: empty and `.`
segments are dropped, `..` removes the segment before it, and a `..` with
nothing to remove is kept only when `allowAboveRoot` holds.  `res` is the stack
of kept segments, last one first. -/
def normalizeSegments (allowAboveRoot : Bool) : List (List Char) → List (List Char) → List (List Char)
  | [], res => res.reverse
  | p :: ps, res =>
    if p = [] ∨ p = ['.'] then normalizeSegments allowAboveRoot ps res
    else if p = ['.', '.'] then
      match res with
      | r :: rs =>
        if r ≠ ['.', '.'] then normalizeSegments allowAboveRoot ps rs
        else if allowAboveRoot then normalizeSegments allowAboveRoot ps (p :: res)
        else normalizeSegments allowAboveRoot ps res
      | [] =>
        if allowAboveRoot then normalizeSegments allowAboveRoot ps [p]
        else normalizeSegments allowAboveRoot ps []
    else normalizeSegments allowAboveRoot ps (p :: res)

/-- Node's `path.posix.normalize`. -/
def pathNormalize (path : List Char) : List Char :=
  if path = [] then ['.']
  else
    let isAbsolute := path.head? = some '/'
    let trailingSeparator := path.getLast? = some '/'
    let body := joinSlash (normalizeSegments (!isAbsolute) (splitSlash path) [])
    if body = [] then
      if isAbsolute then ['/'] else if trailingSeparator then ['.', '/'] else ['.']
    else
      (if isAbsolute then ['/'] else []) ++ body ++ (if trailingSeparator then ['/'] else [])

/-- Node's `path.join` on POSIX: the non-empty arguments are joined with `/`
and the result is normalised; with no non-empty argument the result is `.`. -/
def pathJoin (args : List String) : String :=
  match (args.filter (fun a => a ≠ "")).map String.data with
  | [] => "."
  | segs => String.mk (pathNormalize (joinSlash segs))

/-- Characters of a path segment that `url.resolve` copies unchanged and does not
read as a delimiter: letters, digits, `-`, `_`, `.`, `~`. -/
def segmentChar (c : Char) : Bool :=
  c.isAlphanum || c = '-' || c = '_' || c = '.' || c = '~'

/-- Characters of a path within the modelled part of `url.resolve`: segment
characters and `/`. -/
def pathChar (c : Char) : Bool :=
  segmentChar c || c = '/'

/-- JavaScript `s.split('.')` on a list of characters. -/
def splitDot : List Char → List (List Char)
  | [] => [[]]
  | c :: cs =>
    if c = '.' then [] :: splitDot cs
    else
      match splitDot cs with
      | [] => [[c]]
      | s :: ss => (c :: s) :: ss

/-- Whether a host label starts with `xn--` in either case (a punycode label,
which the library decodes and may refuse). -/
def startsWithXn : List Char → Bool
  | c1 :: c2 :: '-' :: '-' :: _ => (c1 = 'x' || c1 = 'X') && (c2 = 'n' || c2 = 'N')
  | _ => false

/-- A host label within the modelled part of `url.resolve`: 1 to 63 letters,
digits and hyphens (the library's `hostnamePartPattern` admits at most 63
characters), not a punycode label. -/
def hostLabelOk (label : List Char) : Bool :=
  label ≠ [] && label.length ≤ 63 && label.all (fun c => c.isAlphanum || c = '-')
    && !startsWithXn label

/-- A host name within the modelled part: at most 255 characters (the library's
`hostnameMaxLen`), made of host labels separated by dots. -/
def hostnameOk (hostname : List Char) : Bool :=
  hostname.length ≤ 255 && (splitDot hostname).all hostLabelOk

/-- A port within the modelled part: one or more digits. -/
def portOk (port : List Char) : Bool :=
  port ≠ [] && port.all Char.isDigit

/-- The part of a URL between `//` and the path, within the modelled part: a
host name, optionally followed by `:` and a port. -/
def authorityOk (authority : List Char) : Bool :=
  hostnameOk (authority.takeWhile (fun c => c ≠ ':'))
    && ((authority.dropWhile (fun c => c ≠ ':')) = []
      || portOk ((authority.dropWhile (fun c => c ≠ ':')).drop 1))

/-- The parts of a URL that reference resolution uses. -/
structure UrlParts where
  /-- The scheme in lower case with its colon. -/
  protocol : List Char
  /-- The host in lower case, with the port when there is one. -/
  host : List Char
  pathname : List Char
  deriving DecidableEq, Repr

/-- The part of `url.parse(s, false, true)` that reference resolution uses, for
a URL `http://authority` or `https://authority` followed by an optional path:
the scheme and the host are put in lower case, and a URL without a path has path
`/`.  The result is `none` outside the modelled part of the library: another
scheme or no scheme, credentials, a query or a fragment, a host that is not made
of plain labels, and every character that the library escapes, removes or reads
as a delimiter (on some of these inputs the library throws). -/
def urlParse (s : List Char) : Option UrlParts :=
  let scheme := (s.takeWhile Char.isAlpha).map Char.toLower
  let rest := s.dropWhile Char.isAlpha
  if (scheme = ['h', 't', 't', 'p'] ∨ scheme = ['h', 't', 't', 'p', 's'])
      ∧ rest.take 3 = [':', '/', '/'] then
    let authority := (rest.drop 3).takeWhile (fun c => c ≠ '/')
    let pathname := (rest.drop 3).dropWhile (fun c => c ≠ '/')
    if authorityOk authority = true ∧ pathname.all pathChar = true then
      some { protocol := scheme ++ [':']
             host := authority.map Char.toLower
             pathname := if pathname = [] then ['/'] else pathname }
    else none
  else none

/-- The backward scan of `Url.prototype.resolveObject` that removes `.` and
`..` segments: `rev` is the segment list read from its end, `up` counts the
pending `..`, and `kept` collects the surviving segments in their order. -/
def dropDotSegments : List (List Char) → Nat → List (List Char) → List (List Char) × Nat
  | [], up, kept => (kept, up)
  | s :: rev, up, kept =>
    if s = ['.'] then dropDotSegments rev up kept
    else if s = ['.', '.'] then dropDotSegments rev (up + 1) kept
    else if 0 < up then dropDotSegments rev (up - 1) kept
    else dropDotSegments rev 0 (s :: kept)

/-- Node's `url.resolve(source, relative)` for a `source` that `urlParse` reads
and a `relative` that is a non-empty path of path characters not starting with
`//` (what `path.join` returns on plain arguments): the path of `source` loses
its last segment, the segments of `relative` are appended (or replace it when
`relative` starts with `/`), dot segments are removed, the path is made absolute
(the source has a host) and the URL is formatted back.  The result is `none`
outside this modelled part of the library. -/
def urlResolve (source relative : String) : Option String :=
  match urlParse source.data with
  | none => none
  | some base =>
    let rel := relative.data
    if rel = [] ∨ rel.all pathChar = false ∨ rel.take 2 = ['/', '/'] then none
    else
      let isRelAbs := rel.head? = some '/'
      let srcPath := splitSlash base.pathname
      let relPath := splitSlash rel
      let merged := if isRelAbs then relPath else srcPath.dropLast ++ relPath
      let last := merged.getLast?
      let hasTrailingSlash : Bool :=
        last = some ['.'] ∨ last = some ['.', '.'] ∨ last = some []
      let scanned := (dropDotSegments merged.reverse 0 []).1
      let rooted := if scanned.head? ≠ some [] then [] :: scanned else scanned
      let closed :=
        if hasTrailingSlash ∧ (joinSlash rooted).getLast? ≠ some '/' then rooted ++ [[]]
        else rooted
      some (String.mk (base.protocol ++ '/' :: '/' :: base.host ++ joinSlash closed))

/-! ## JavaScript values -/

/-- A JavaScript number that is an integer of magnitude below `2^53`, the
integers that a double holds exactly and prints in decimal.  The other numbers
(fractions, larger magnitudes, `NaN`, the infinities), whose printing is the
formatting of a double, are outside the model. -/
structure JsInt where
  negative : Bool
  magnitude : Fin 9007199254740992
  deriving DecidableEq, Repr

/-- JavaScript `n.toString()` for such a number: decimal digits, with a sign for
a negative number; both zeros print `0`. -/
def JsInt.toString (n : JsInt) : String :=
  if n.magnitude.val = 0 then "0"
  else if n.negative then "-" ++ Nat.repr n.magnitude.val
  else Nat.repr n.magnitude.val

/-- The JavaScript values that callers pass as identifiers, branches and JSON
bodies: the primitives and a plain object given by its own properties, which
hold strings. -/
inductive JsVal where
  | undefined
  | null
  | bool (b : Bool)
  | num (n : JsInt)
  | str (s : String)
  | obj (fields : List (String × String))
  deriving DecidableEq, Repr

/-- JavaScript truthiness (`ToBoolean`). -/
def JsVal.truthy : JsVal → Bool
  | .undefined => false
  | .null => false
  | .bool b => b
  | .num n => n.magnitude.val ≠ 0
  | .str s => s ≠ ""
  | .obj _ => true

/-- Reads property `k` of an object held as a list of own properties. -/
def objGet : List (String × String) → String → Option String
  | [], _ => none
  | (k', v') :: rest, k => if k' = k then some v' else objGet rest k

/-- Assignment `o[k] = v`: an own property keeps its place and takes the new
value, a new property is added at the end. -/
def objSet : List (String × String) → String → String → List (String × String)
  | [], k, v => [(k, v)]
  | (k', v') :: rest, k, v => if k' = k then (k, v) :: rest else (k', v') :: objSet rest k v

/-- The string that `'' + v` yields (`ToString`, for an object through
`ToPrimitive`), or the exception that it throws.  A plain object prints as
`[object Object]` through the inherited `toString`; an own property `toString`
shadows it, and since it holds a string, which cannot be called, and the
inherited `valueOf` returns the object itself, the conversion throws
`TypeError`.  (An own `valueOf` holding a string is skipped and changes
nothing.) -/
def JsVal.toJsString : JsVal → Except String String
  | .undefined => .ok "undefined"
  | .null => .ok "null"
  | .bool true => .ok "true"
  | .bool false => .ok "false"
  | .num n => .ok n.toString
  | .str s => .ok s
  | .obj fields =>
    match objGet fields "toString" with
    | none => .ok "[object Object]"
    | some _ => .error "TypeError: Cannot convert object to primitive value"

/-- Whether the string conversion of a value returns. -/
def JsVal.prints (v : JsVal) : Bool :=
  match v.toJsString with
  | .ok _ => true
  | .error _ => false

/-- JavaScript `a || b`. -/
def JsVal.orElse (a b : JsVal) : JsVal :=
  if a.truthy then a else b

/-- An optional configuration string seen as a JavaScript value: a missing
property reads as `undefined`. -/
def optVal : Option String → JsVal
  | none => .undefined
  | some s => .str s

/-- The string that `'' + v` yields for a configuration value that is a string
or `undefined`. -/
def optStr : Option String → String
  | none => "undefined"
  | some s => s

/-- The value of a string of decimal digits. -/
def digitsValue (cs : List Char) : Nat :=
  cs.foldl (fun n c => 10 * n + (c.toNat - 48)) 0

/-- An array index: the canonical decimal form of an integer below `2^32 - 1`. -/
def arrayIndex (k : String) : Option Nat :=
  if k.data ≠ [] ∧ k.data.all Char.isDigit = true
      ∧ (k.data.head? ≠ some '0' ∨ k.data.length = 1)
      ∧ digitsValue k.data < 4294967295 then
    some (digitsValue k.data)
  else none

/-- A JavaScript array used as a map (`customHeaders = []`): its `length` and its
own enumerable properties, the indexed elements included.  Property values are
strings (header values). -/
structure JsArray where
  length : Nat
  props : List (String × String)
  deriving DecidableEq, Repr

/-- Assignment `a[k] = v` on an array, for a string `v`.  The key `length` goes
to the array's length setter: `toLength v` is the runtime's conversion of `v` to
a valid array length (`none` when it is not one, which throws `RangeError`), and
the elements at or above the new length are deleted.  The key `__proto__` goes to
the inherited setter, which ignores a string.  An array index also raises
`length`.  Every other key becomes an own property. -/
def arraySet (toLength : String → Option Nat) (a : JsArray) (k v : String) : Except String JsArray :=
  if k = "length" then
    match toLength v with
    | none => .error "RangeError: Invalid array length"
    | some n =>
      .ok { length := n
            props := a.props.filter fun p =>
              match arrayIndex p.1 with
              | some i => decide (i < n)
              | none => true }
  else if k = "__proto__" then .ok a
  else
    .ok { length :=
            match arrayIndex k with
            | some i => max a.length (i + 1)
            | none => a.length
          props := objSet a.props k v }

/-- The conversion of a canonical decimal string to an array length, the part of
the runtime's conversion used in the examples below. -/
def decimalLength (v : String) : Option Nat :=
  if v.data ≠ [] ∧ v.data.all Char.isDigit = true ∧ digitsValue v.data ≤ 4294967295 then
    some (digitsValue v.data)
  else none

/-! ## The module closure -/

/-- The account identifier: "can come in as -a '1234' or -a 1234". -/
inductive AccountId where
  | num (n : JsInt)
  | str (s : String)
  deriving DecidableEq, Repr

/-- JavaScript `accountId.toString()`. -/
def AccountId.toString : AccountId → String
  | .num n => n.toString
  | .str s => s

/-- The argument `apiInfo` of `module.exports`; a property that is not set is
`none`. -/
structure ApiInfo where
  accountId : AccountId
  baseUrl : Option String := none
  version : Option String := none
  accessToken : Option String := none
  email : Option String := none
  password : Option String := none
  deriving DecidableEq, Repr

/-- The state of the closure: the configuration, the account URL `url` computed
when the closure is created, and the `customHeaders` array.  (`accessToken` and
`email` are `apiInfo.accessToken` and `apiInfo.email`.) -/
structure Client where
  apiInfo : ApiInfo
  url : String
  customHeaders : JsArray
  deriving DecidableEq, Repr

/-- Source: `bcAccount = apiInfo.accountId.toString()`. -/
def bcAccount (apiInfo : ApiInfo) : String :=
  apiInfo.accountId.toString

/-- Source: `baseUrl = apiInfo.baseUrl || 'https://players.api.brightcove.com'`. -/
def baseUrl (apiInfo : ApiInfo) : String :=
  if (optVal apiInfo.baseUrl).truthy then optStr apiInfo.baseUrl
  else "https://players.api.brightcove.com"

/-- Source: `apiVersion = apiInfo.version || 'v1'`. -/
def apiVersion (apiInfo : ApiInfo) : String :=
  if (optVal apiInfo.version).truthy then optStr apiInfo.version else "v1"

/-- Source: `urlPath = path.join(apiVersion, 'accounts', bcAccount)`. -/
def urlPath (apiInfo : ApiInfo) : String :=
  pathJoin [apiVersion apiInfo, "accounts", bcAccount apiInfo]

/-- The closure as it is created, given its account URL: `customHeaders = []`. -/
def newClient (apiInfo : ApiInfo) (url : String) : Client :=
  { apiInfo := apiInfo, url := url, customHeaders := { length := 0, props := [] } }

/-- Source: `module.exports(apiInfo)`, the creation of the closure, with
`url = urlTool.resolve(baseUrl, urlPath)`.  The result is `none` when the
configuration is outside the modelled part of `url.resolve`. -/
def moduleExports (apiInfo : ApiInfo) : Option Client :=
  match urlResolve (baseUrl apiInfo) (urlPath apiInfo) with
  | none => none
  | some url => some (newClient apiInfo url)

/-- The request descriptor handed to the transport.  `body = none` is a
descriptor without a `body` property. -/
structure RequestParams where
  url : String
  strictSSL : Bool
  headers : List (String × String)
  body : Option JsVal
  deriving DecidableEq, Repr

/-- The loop `for (customHeader in customHeaders)
params.headers[customHeader] = customHeaders[customHeader]`, run over the own
enumerable keys of the array (the prototypes carry no enumerable property).
Every enumerated key is an own property, so the read finds a value.  The order
in which the keys are visited is not tracked beyond the order of the list; the
resulting mapping does not depend on it. -/
def copyCustomHeaders (customHeaders : JsArray) : List (String × String) :=
  (customHeaders.props.map Prod.fst).foldl
    (fun headers customHeader =>
      match objGet customHeaders.props customHeader with
      | some v => objSet headers customHeader v
      | none => headers)
    []

/-- Source: `getRequestParamsRead(path)`. -/
def getRequestParamsRead (c : Client) (path : String) : RequestParams :=
  let headers := copyCustomHeaders c.customHeaders
  { url := c.url ++ path
    strictSSL := false
    headers :=
      if (optVal c.apiInfo.accessToken).truthy then
        objSet headers "Authorization" ("Bearer " ++ optStr c.apiInfo.accessToken)
      else headers
    body := none }

/-- Source: `getRequestParamsWrite(path, data)`; a call without `data` passes
`undefined`. -/
def getRequestParamsWrite (c : Client) (path : String) (data : JsVal) : RequestParams :=
  let params := getRequestParamsRead c path
  let params := { params with headers := objSet params.headers "content-type" "application/json" }
  if data.truthy then { params with body := some data } else params

/-- Source: `addCustomHeader(key, value)`, that is `customHeaders[key] = value`. -/
def addCustomHeader (toLength : String → Option Nat) (c : Client) (key value : String) :
    Except String Client :=
  match arraySet toLength c.customHeaders key value with
  | .ok a => .ok { c with customHeaders := a }
  | .error e => .error e

/-! ## Effects -/

/-- What an operation or a completion handler does besides building values:
console output and the call of the caller's callback. -/
inductive Output (E R : Type) where
  | consoleInfo (text : String)
  | consoleLog (text : String)
  | consoleTime (label : String)
  | consoleTimeEnd (label : String)
  | callback (error : E) (response : R)

/-- The verb methods of the transport: `request.get`, `request.post`,
`request.put`, `request.patch`, `request.del`. -/
inductive Verb where
  | get
  | post
  | put
  | patch
  | del
  deriving DecidableEq, Repr

/-- One synchronous step of an operation: an output, or the call of a transport
verb with the descriptor and the completion handler. -/
inductive Step (E R : Type) where
  | out (o : Output E R)
  | request (verb : Verb) (params : RequestParams) (handler : E → R → List (Output E R))

/-- The run of a piece of the module's code: the steps it performed, in order,
and the value it returned or the exception that ended it. -/
structure Js (E R : Type) (α : Type) where
  steps : List (Step E R)
  result : Except String α

/-- Sequencing: the second piece runs only when the first one returned. -/
def Js.bind {E R α β : Type} (m : Js E R α) (f : α → Js E R β) : Js E R β :=
  match m.result with
  | .error e => { steps := m.steps, result := .error e }
  | .ok a => { steps := m.steps ++ (f a).steps, result := (f a).result }

instance {E R : Type} : Monad (Js E R) where
  pure a := { steps := [], result := .ok a }
  bind := Js.bind

/-- The evaluation of an expression that performs no step and may throw. -/
def Js.lift {E R α : Type} (x : Except String α) : Js E R α :=
  { steps := [], result := x }

/-- An output step. -/
def Js.out {E R : Type} (o : Output E R) : Js E R Unit :=
  { steps := [.out o], result := .ok () }

/-- The call of a transport verb, which returns at once; the handler runs when
the transport completes. -/
def Js.request {E R : Type} (verb : Verb) (params : RequestParams)
    (handler : E → R → List (Output E R)) : Js E R Unit :=
  { steps := [.request verb params handler], result := .ok () }

/-- Source: `logCurlRequest(method, json, url, _extraParams)`.  The string
`data` is built from `json` before anything is written.  (The source also
computes `authCreds = apiInfo.email + ':' + apiInfo.password`, which it never
uses.) -/
def logCurlRequest {E R : Type} (c : Client) (method : String) (json : JsVal) (url : String)
    (_extraParams : JsVal) : Js E R Unit := do
  let extraParams := _extraParams.orElse (.str "")
  let data ←
    if json.truthy then do
      let text ← Js.lift json.toJsString
      pure ("--data '" ++ text ++ "' ")
    else pure ""
  let contentType :=
    if method = "POST" ∨ method = "PUT" then "-H 'Content-Type: application/json' " else ""
  let authParam :=
    if (optVal c.apiInfo.accessToken).truthy then
      "-H 'Authorization: Bearer " ++ optStr c.apiInfo.accessToken ++ "' "
    else "-u " ++ optStr c.apiInfo.email ++ " "
  Js.out (.consoleInfo "")
  Js.out (.consoleInfo "curl command:")
  let extraText ← Js.lift extraParams.toJsString
  Js.out (.consoleInfo ("> curl -k " ++ "-X " ++ method ++ " " ++
    authParam ++ data ++ contentType ++ extraText ++ " " ++ url))

/-- Source: `players.list(callback)`. -/
def players.list {E R : Type} (c : Client) : Js E R Unit := do
  let requestParams := getRequestParamsRead c "/players"
  logCurlRequest c "GET" (.obj requestParams.headers) requestParams.url .undefined
  Js.out (.consoleTime "List Response Time")
  Js.request .get requestParams fun error response =>
    [.consoleTimeEnd "List Response Time", .callback error response]

/-- Source: `player.create(json, callback)`. -/
def player.create {E R : Type} (c : Client) (json : JsVal) : Js E R Unit := do
  let requestParams := getRequestParamsWrite c "/players" json
  logCurlRequest c "POST" json requestParams.url .undefined
  Js.out (.consoleTime "Player Creation Response Time")
  Js.request .post requestParams fun error response =>
    [.consoleTimeEnd "Player Creation Response Time", .callback error response]

/-- Source: `player.delete(playerId, callback)`. -/
def player.delete {E R : Type} (c : Client) (playerId : JsVal) : Js E R Unit := do
  let id ← Js.lift playerId.toJsString
  Js.out (.consoleLog ("Deleting player " ++ id))
  Js.out (.consoleTime "Delete player time")
  let requestParams := getRequestParamsWrite c ("/players/" ++ id) .undefined
  Js.request .del requestParams fun error response =>
    [.consoleTimeEnd "Delete player time", .callback error response]

/-- Source: `player.get(playerId, callback)`. -/
def player.get {E R : Type} (c : Client) (playerId : JsVal) : Js E R Unit := do
  let id ← Js.lift playerId.toJsString
  let requestParams := getRequestParamsRead c ("/players/" ++ id)
  logCurlRequest c "GET" (.obj requestParams.headers) requestParams.url .undefined
  Js.out (.consoleTime "Get Player Response Time")
  Js.request .get requestParams fun error response =>
    [.consoleTimeEnd "Get Player Response Time", .callback error response]

/-- Source: `player.patch(playerId, json, callback)`. -/
def player.patch {E R : Type} (c : Client) (playerId json : JsVal) : Js E R Unit := do
  let id ← Js.lift playerId.toJsString
  let requestParams := getRequestParamsWrite c ("/players/" ++ id) json
  logCurlRequest c "PATCH" json requestParams.url .undefined
  Js.out (.consoleTime "Patch Player Response Time")
  Js.request .patch requestParams fun error response =>
    [.consoleTimeEnd "Patch Player Response Time", .callback error response]

/-- Source: `player.publish(playerId, json, callback)`; its handler calls
`console.time`. -/
def player.publish {E R : Type} (c : Client) (playerId json : JsVal) : Js E R Unit := do
  let id ← Js.lift playerId.toJsString
  let requestParams := getRequestParamsWrite c ("/players/" ++ id ++ "/publish") json
  logCurlRequest c "POST" json requestParams.url .undefined
  Js.out (.consoleTime "Publish Response Time")
  Js.request .post requestParams fun error response =>
    [.consoleTime "Publish Response Time", .callback error response]

/-- Source: `player.config.get(playerId, branch, callback)`. -/
def player.config.get {E R : Type} (c : Client) (playerId branch : JsVal) : Js E R Unit := do
  let id ← Js.lift playerId.toJsString
  let branchText ← Js.lift (branch.orElse (.str "")).toJsString
  let requestParams := getRequestParamsRead c ("/players/" ++ id ++
    "/configuration/" ++ branchText)
  logCurlRequest c "GET" (.obj requestParams.headers) requestParams.url .undefined
  Js.out (.consoleTime "getPlayerConfig Response Time")
  Js.request .get requestParams fun error response =>
    [.consoleTimeEnd "getPlayerConfig Response Time", .callback error response]

/-- Source: `player.config.put(playerId, json, callback)`. -/
def player.config.put {E R : Type} (c : Client) (playerId json : JsVal) : Js E R Unit := do
  let id ← Js.lift playerId.toJsString
  let requestParams := getRequestParamsWrite c ("/players/" ++ id ++ "/configuration") json
  logCurlRequest c "PUT" json requestParams.url .undefined
  Js.out (.consoleTime "Put Player Config Response Time")
  Js.request .put requestParams fun error response =>
    [.consoleTimeEnd "Put Player Config Response Time", .callback error response]

/-- Source: `player.config.patch(playerId, json, callback)`. -/
def player.config.patch {E R : Type} (c : Client) (playerId json : JsVal) : Js E R Unit := do
  let id ← Js.lift playerId.toJsString
  let requestParams := getRequestParamsWrite c ("/players/" ++ id ++ "/configuration") json
  logCurlRequest c "PATCH" json requestParams.url .undefined
  Js.out (.consoleTime "Patch Player Config Response Time")
  Js.request .patch requestParams fun error response =>
    [.consoleTimeEnd "Patch Player Config Response Time", .callback error response]

/-- Source: `embeds.list(playerId, callback)`. -/
def embeds.list {E R : Type} (c : Client) (playerId : JsVal) : Js E R Unit := do
  let id ← Js.lift playerId.toJsString
  let requestParams := getRequestParamsRead c ("/players/" ++ id ++ "/embeds")
  logCurlRequest c "GET" (.obj requestParams.headers) requestParams.url .undefined
  Js.out (.consoleTime "Embed List Response Time")
  Js.request .get requestParams fun error response =>
    [.consoleTimeEnd "Embed List Response Time", .callback error response]

/-- Source: `embed.create(playerId, json, callback)`. -/
def embed.create {E R : Type} (c : Client) (playerId json : JsVal) : Js E R Unit := do
  let id ← Js.lift playerId.toJsString
  let requestParams := getRequestParamsWrite c ("/players/" ++ id ++ "/embeds") json
  logCurlRequest c "POST" json requestParams.url .undefined
  Js.out (.consoleTime "createEmbed Response Time")
  Js.request .post requestParams fun error response =>
    [.consoleTimeEnd "createEmbed Response Time", .callback error response]

/-- Source: `embed.delete(playerId, embedId, callback)`. -/
def embed.delete {E R : Type} (c : Client) (playerId embedId : JsVal) : Js E R Unit := do
  let id ← Js.lift playerId.toJsString
  let embed ← Js.lift embedId.toJsString
  let requestParams := getRequestParamsWrite c ("/players/" ++ id ++ "/embeds/" ++ embed) .null
  logCurlRequest c "DELETE" .null requestParams.url .undefined
  Js.out (.consoleTime "deleteEmbed Response Time")
  Js.request .del requestParams fun error response =>
    [.consoleTimeEnd "deleteEmbed Response Time", .callback error response]

/-- Source: `embed.get(playerId, embedId, callback)`. -/
def embed.get {E R : Type} (c : Client) (playerId embedId : JsVal) : Js E R Unit := do
  let id ← Js.lift playerId.toJsString
  let embed ← Js.lift embedId.toJsString
  let requestParams := getRequestParamsRead c ("/players/" ++ id ++ "/embeds/" ++ embed)
  logCurlRequest c "GET" .null requestParams.url .undefined
  Js.out (.consoleTime "getEmbed Response Time")
  Js.request .get requestParams fun error response =>
    [.consoleTimeEnd "getEmbed Response Time", .callback error response]

/-- Source: `embed.publish(playerId, embedId, json, callback)`; its handler calls
`console.time`. -/
def embed.publish {E R : Type} (c : Client) (playerId embedId json : JsVal) :
    Js E R Unit := do
  let id ← Js.lift playerId.toJsString
  let embed ← Js.lift embedId.toJsString
  let requestParams := getRequestParamsWrite c
    ("/players/" ++ id ++ "/embeds/" ++ embed ++ "/publish") json
  logCurlRequest c "POST" json requestParams.url .undefined
  Js.out (.consoleTime "Publish Response Time")
  Js.request .post requestParams fun error response =>
    [.consoleTime "Publish Response Time", .callback error response]

/-- Source: `embed.config.get(playerId, embedId, branch, callback)`. -/
def embed.config.get {E R : Type} (c : Client) (playerId embedId branch : JsVal) :
    Js E R Unit := do
  let id ← Js.lift playerId.toJsString
  let embed ← Js.lift embedId.toJsString
  let branchPart ←
    if branch.truthy then do
      let branchText ← Js.lift branch.toJsString
      pure ("/" ++ branchText)
    else pure ""
  let path := "/players/" ++ id ++ "/embeds/" ++ embed ++ "/configuration" ++ branchPart
  let requestParams := getRequestParamsRead c path
  logCurlRequest c "GET" .null requestParams.url .undefined
  Js.out (.consoleTime "getEmbedConfig Response Time")
  Js.request .get requestParams fun error response =>
    [.consoleTimeEnd "getEmbedConfig Response Time", .callback error response]

/-- Source: `embed.config.getMerged(playerId, playerBranch, embedId, embedBranch,
callback)`. -/
def embed.config.getMerged {E R : Type} (c : Client)
    (playerId playerBranch embedId embedBranch : JsVal) : Js E R Unit := do
  let id ← Js.lift playerId.toJsString
  let embed ← Js.lift embedId.toJsString
  let playerBranchText ← Js.lift playerBranch.toJsString
  let embedBranchText ← Js.lift embedBranch.toJsString
  let path := "/players/" ++ id ++ "/embeds/" ++ embed ++ "/configuration/merged?" ++
    "playerBranch=" ++ playerBranchText ++ "&embedBranch=" ++ embedBranchText
  let requestParams := getRequestParamsRead c path
  logCurlRequest c "GET" .null requestParams.url .undefined
  Js.out (.consoleTime "getEmbedConfig Response Time")
  Js.request .get requestParams fun error response =>
    [.consoleTimeEnd "getEmbedConfig Response Time", .callback error response]

/-- Source: `embed.config.put(playerId, embedId, json, callback)`. -/
def embed.config.put {E R : Type} (c : Client) (playerId embedId json : JsVal) :
    Js E R Unit := do
  let id ← Js.lift playerId.toJsString
  let embed ← Js.lift embedId.toJsString
  let requestParams := getRequestParamsWrite c
    ("/players/" ++ id ++ "/embeds/" ++ embed ++ "/configuration") json
  Js.out (.consoleLog ("update config for embed: " ++ embed))
  logCurlRequest c "PUT" json requestParams.url .undefined
  Js.out (.consoleTime "updateEmbed Response Time")
  Js.request .put requestParams fun error response =>
    [.consoleTimeEnd "updateEmbed Response Time", .callback error response]

/-- Source: `embed.config.patch(playerId, embedId, json, callback)`. -/
def embed.config.patch {E R : Type} (c : Client) (playerId embedId json : JsVal) :
    Js E R Unit := do
  let id ← Js.lift playerId.toJsString
  let embed ← Js.lift embedId.toJsString
  let requestParams := getRequestParamsWrite c
    ("/players/" ++ id ++ "/embeds/" ++ embed ++ "/configuration") json
  logCurlRequest c "PATCH" json requestParams.url .undefined
  Js.out (.consoleTime "Patch Embed Config Response Time")
  Js.request .patch requestParams fun error response =>
    [.consoleTimeEnd "Patch Embed Config Response Time", .callback error response]

/-- A call of one of the eighteen operations of the returned object, with its
arguments (the callback excepted). -/
inductive Operation where
  | playersList
  | playerCreate (json : JsVal)
  | playerDelete (playerId : JsVal)
  | playerGet (playerId : JsVal)
  | playerPatch (playerId json : JsVal)
  | playerPublish (playerId json : JsVal)
  | playerConfigGet (playerId branch : JsVal)
  | playerConfigPut (playerId json : JsVal)
  | playerConfigPatch (playerId json : JsVal)
  | embedsList (playerId : JsVal)
  | embedCreate (playerId json : JsVal)
  | embedDelete (playerId embedId : JsVal)
  | embedGet (playerId embedId : JsVal)
  | embedPublish (playerId embedId json : JsVal)
  | embedConfigGet (playerId embedId branch : JsVal)
  | embedConfigGetMerged (playerId playerBranch embedId embedBranch : JsVal)
  | embedConfigPut (playerId embedId json : JsVal)
  | embedConfigPatch (playerId embedId json : JsVal)
  deriving DecidableEq, Repr

/-- The run of an operation call: the method of the returned object that the
call names, applied to its arguments. -/
def invoke {E R : Type} (c : Client) : Operation → Js E R Unit
  | .playersList => players.list c
  | .playerCreate json => player.create c json
  | .playerDelete playerId => player.delete c playerId
  | .playerGet playerId => player.get c playerId
  | .playerPatch playerId json => player.patch c playerId json
  | .playerPublish playerId json => player.publish c playerId json
  | .playerConfigGet playerId branch => player.config.get c playerId branch
  | .playerConfigPut playerId json => player.config.put c playerId json
  | .playerConfigPatch playerId json => player.config.patch c playerId json
  | .embedsList playerId => embeds.list c playerId
  | .embedCreate playerId json => embed.create c playerId json
  | .embedDelete playerId embedId => embed.delete c playerId embedId
  | .embedGet playerId embedId => embed.get c playerId embedId
  | .embedPublish playerId embedId json => embed.publish c playerId embedId json
  | .embedConfigGet playerId embedId branch => embed.config.get c playerId embedId branch
  | .embedConfigGetMerged playerId playerBranch embedId embedBranch =>
    embed.config.getMerged c playerId playerBranch embedId embedBranch
  | .embedConfigPut playerId embedId json => embed.config.put c playerId embedId json
  | .embedConfigPatch playerId embedId json => embed.config.patch c playerId embedId json

/-- The transport calls among the steps of an operation, in order. -/
def requests {E R : Type} : List (Step E R) → List (Verb × RequestParams)
  | [] => []
  | .out _ :: rest => requests rest
  | .request verb params _ :: rest => (verb, params) :: requests rest

/-- The outputs of running the steps against a transport.  The transport is the
function that gives, for a verb and a descriptor, the `(error, response)` pairs
with which it completes that call, in order; every completion runs the handler
of the call, after the synchronous steps have finished. -/
def run {E R : Type} (transport : Verb → RequestParams → List (E × R)) :
    List (Step E R) → List (Output E R)
  | [] => []
  | .out o :: rest => o :: run transport rest
  | .request verb params handler :: rest =>
    run transport rest ++ ((transport verb params).map fun er => handler er.1 er.2).flatten

/-- The `(error, response)` pairs with which the caller's callback was called,
in order. -/
def callbacks {E R : Type} : List (Output E R) → List (E × R)
  | [] => []
  | .callback error response :: rest => (error, response) :: callbacks rest
  | _ :: rest => callbacks rest

/-- The lines written with `console.info`, in order. -/
def infoLines {E R : Type} : List (Output E R) → List String
  | [] => []
  | .consoleInfo text :: rest => text :: infoLines rest
  | _ :: rest => infoLines rest

/-! ## Vocabulary of the specification -/

/-- The verb that the specification's list of operations gives to each
operation. -/
def listedVerb : Operation → Verb
  | .playersList => .get
  | .playerCreate _ => .post
  | .playerGet _ => .get
  | .playerPatch _ _ => .patch
  | .playerDelete _ => .del
  | .playerPublish _ _ => .post
  | .playerConfigGet _ _ => .get
  | .playerConfigPut _ _ => .put
  | .playerConfigPatch _ _ => .patch
  | .embedsList _ => .get
  | .embedCreate _ _ => .post
  | .embedGet _ _ => .get
  | .embedDelete _ _ => .del
  | .embedPublish _ _ _ => .post
  | .embedConfigGet _ _ _ => .get
  | .embedConfigGetMerged _ _ _ _ => .get
  | .embedConfigPut _ _ _ => .put
  | .embedConfigPatch _ _ _ => .patch

/-- How the specification writes an identifier or a branch into a path: "strings
or numbers", "passed through verbatim".  A string stands for itself and a number
for its decimal numeral; for another value the specification says nothing. -/
def written : JsVal → Option String
  | .str s => some s
  | .num n => some n.toString
  | _ => none

/-- The path suffix that the specification's list gives to each operation, the
caller's identifiers and branches written in; `none` when one of them is neither
a string nor a number. -/
def listedSuffix : Operation → Option String
  | .playersList => some "/players"
  | .playerCreate _ => some "/players"
  | .playerGet playerId => do
    let id ← written playerId
    pure ("/players/" ++ id)
  | .playerPatch playerId _ => do
    let id ← written playerId
    pure ("/players/" ++ id)
  | .playerDelete playerId => do
    let id ← written playerId
    pure ("/players/" ++ id)
  | .playerPublish playerId _ => do
    let id ← written playerId
    pure ("/players/" ++ id ++ "/publish")
  | .playerConfigGet playerId branch => do
    let id ← written playerId
    let b ← written branch
    pure ("/players/" ++ id ++ "/configuration/" ++ b)
  | .playerConfigPut playerId _ => do
    let id ← written playerId
    pure ("/players/" ++ id ++ "/configuration")
  | .playerConfigPatch playerId _ => do
    let id ← written playerId
    pure ("/players/" ++ id ++ "/configuration")
  | .embedsList playerId => do
    let id ← written playerId
    pure ("/players/" ++ id ++ "/embeds")
  | .embedCreate playerId _ => do
    let id ← written playerId
    pure ("/players/" ++ id ++ "/embeds")
  | .embedGet playerId embedId => do
    let id ← written playerId
    let embed ← written embedId
    pure ("/players/" ++ id ++ "/embeds/" ++ embed)
  | .embedDelete playerId embedId => do
    let id ← written playerId
    let embed ← written embedId
    pure ("/players/" ++ id ++ "/embeds/" ++ embed)
  | .embedPublish playerId embedId _ => do
    let id ← written playerId
    let embed ← written embedId
    pure ("/players/" ++ id ++ "/embeds/" ++ embed ++ "/publish")
  | .embedConfigGet playerId embedId branch => do
    let id ← written playerId
    let embed ← written embedId
    let b ← written branch
    pure ("/players/" ++ id ++ "/embeds/" ++ embed ++ "/configuration/" ++ b)
  | .embedConfigGetMerged playerId playerBranch embedId embedBranch => do
    let id ← written playerId
    let embed ← written embedId
    let pb ← written playerBranch
    let eb ← written embedBranch
    pure ("/players/" ++ id ++ "/embeds/" ++ embed ++
      "/configuration/merged?playerBranch=" ++ pb ++ "&embedBranch=" ++ eb)
  | .embedConfigPut playerId embedId _ => do
    let id ← written playerId
    let embed ← written embedId
    pure ("/players/" ++ id ++ "/embeds/" ++ embed ++ "/configuration")
  | .embedConfigPatch playerId embedId _ => do
    let id ← written playerId
    let embed ← written embedId
    pure ("/players/" ++ id ++ "/embeds/" ++ embed ++ "/configuration")

/-- Whether the call gives the optional branch of `config.get` (the listed
suffix `{branch?}`) as a truthy value; the other operations have no optional
segment. -/
def branchGiven : Operation → Bool
  | .playerConfigGet _ branch => branch.truthy
  | .embedConfigGet _ _ branch => branch.truthy
  | _ => true

/-- Whether the string conversion of the JSON body of the call, when the
operation takes one, returns. -/
def bodyPrints : Operation → Bool
  | .playerCreate json => json.prints
  | .playerPatch _ json => json.prints
  | .playerPublish _ json => json.prints
  | .playerConfigPut _ json => json.prints
  | .playerConfigPatch _ json => json.prints
  | .embedCreate _ json => json.prints
  | .embedPublish _ _ json => json.prints
  | .embedConfigPut _ _ json => json.prints
  | .embedConfigPatch _ _ json => json.prints
  | _ => true

/-- The write operations as the specification names them: create, patch, put,
publish. -/
def isWrite : Operation → Bool
  | .playerCreate _ => true
  | .playerPatch _ _ => true
  | .playerPublish _ _ => true
  | .playerConfigPut _ _ => true
  | .playerConfigPatch _ _ => true
  | .embedCreate _ _ => true
  | .embedPublish _ _ _ => true
  | .embedConfigPut _ _ _ => true
  | .embedConfigPatch _ _ _ => true
  | _ => false

/-- The two delete operations. -/
def isDelete : Operation → Bool
  | .playerDelete _ => true
  | .embedDelete _ _ => true
  | _ => false

/-- The number of places where two slashes stand next to each other. -/
def doubleSlashCount : List Char → Nat
  | [] => 0
  | [_] => 0
  | c :: d :: rest => (if c = '/' ∧ d = '/' then 1 else 0) + doubleSlashCount (d :: rest)

/-- A plain path segment: a non-empty string of segment characters (letters,
digits, `-`, `_`, `.`, `~`) other than `.` and `..`. -/
def plainSegment (s : String) : Bool :=
  s.data ≠ [] && s.data ≠ ['.'] && s.data ≠ ['.', '.'] && s.data.all segmentChar

/-- A base URL that is a lower-case origin without a path: `http://` or
`https://` followed by a host name of plain labels (1 to 63 letters, digits and
hyphens each, none starting with `xn--`, separated by dots, at most 255
characters in all) written in lower case, optionally followed by `:` and a port
of one or more digits, and by nothing else. -/
def bareOrigin (b : String) : Bool :=
  match b.data with
  | 'h' :: 't' :: 't' :: 'p' :: 's' :: ':' :: '/' :: '/' :: authority =>
    authorityOk authority && decide (authority.map Char.toLower = authority)
      && authority.all (fun c => c ≠ '/')
  | 'h' :: 't' :: 't' :: 'p' :: ':' :: '/' :: '/' :: authority =>
    authorityOk authority && decide (authority.map Char.toLower = authority)
      && authority.all (fun c => c ≠ '/')
  | _ => false

/-- An HTTP response as the transport delivers it. -/
structure Response where
  status : Nat
  body : String
  deriving DecidableEq, Repr

/-! ## Lemmas on the run of an operation -/

theorem Js.bind_eq {E R α β : Type} (m : Js E R α) (f : α → Js E R β) :
    m >>= f = Js.bind m f := rfl

theorem Js.pure_eq {E R α : Type} (a : α) :
    (pure a : Js E R α) = { steps := [], result := .ok a } := rfl

theorem Js.steps_bind {E R α β : Type} (m : Js E R α) (f : α → Js E R β) :
    (Js.bind m f).steps
      = m.steps ++ (match m.result with
        | .ok a => (f a).steps
        | .error _ => []) := by
  unfold Js.bind
  cases m.result <;> simp

theorem Js.result_bind {E R α β : Type} (m : Js E R α) (f : α → Js E R β) :
    (Js.bind m f).result
      = (match m.result with
        | .ok a => (f a).result
        | .error e => .error e) := by
  unfold Js.bind
  cases m.result <;> simp

theorem requests_append {E R : Type} (xs ys : List (Step E R)) :
    requests (xs ++ ys) = requests xs ++ requests ys := by
  induction xs with
  | nil => rfl
  | cons x xs ih => cases x <;> simp [requests, ih]

theorem callbacks_append {E R : Type} (xs ys : List (Output E R)) :
    callbacks (xs ++ ys) = callbacks xs ++ callbacks ys := by
  induction xs with
  | nil => rfl
  | cons x xs ih => cases x <;> simp [callbacks, ih]

theorem run_append {E R : Type} (transport : Verb → RequestParams → List (E × R))
    (xs ys : List (Step E R)) (hx : requests xs = []) :
    run transport (xs ++ ys) = run transport xs ++ run transport ys := by
  induction xs with
  | nil => rfl
  | cons x xs ih =>
    cases x with
    | out o => simp [run, requests] at hx ⊢; exact ih hx
    | request verb params handler => simp [requests] at hx

theorem callbacks_handler {E R : Type} (label : Output E R) (hl : callbacks [label] = [])
    (completions : List (E × R)) :
    callbacks ((completions.map fun er => [label, .callback er.1 er.2]).flatten) = completions := by
  induction completions with
  | nil => rfl
  | cons er rest ih =>
    cases label <;> simp_all [callbacks]

theorem requests_logCurlRequest {E R : Type} (c : Client) (method : String) (json : JsVal)
    (u : String) (extra : JsVal) :
    requests (logCurlRequest c method json u extra : Js E R Unit).steps = [] := by
  by_cases ht : json.truthy = true <;> cases hj : json.toJsString <;>
    cases he : (extra.orElse (.str "")).toJsString <;>
    simp [logCurlRequest, Js.bind_eq, Js.pure_eq, Js.steps_bind, Js.result_bind, Js.lift,
      Js.out, ht, hj, he, requests]

theorem callbacks_run_logCurlRequest {E R : Type}
    (transport : Verb → RequestParams → List (E × R)) (c : Client) (method : String)
    (json : JsVal) (u : String) (extra : JsVal) :
    callbacks (run transport (logCurlRequest c method json u extra).steps) = [] := by
  by_cases ht : json.truthy = true <;> cases hj : json.toJsString <;>
    cases he : (extra.orElse (.str "")).toJsString <;>
    simp [logCurlRequest, Js.bind_eq, Js.pure_eq, Js.steps_bind, Js.result_bind, Js.lift,
      Js.out, ht, hj, he, run, callbacks]

theorem result_logCurlRequest {E R : Type} (c : Client) (method : String) (json : JsVal)
    (u : String) (h : json.truthy = true → json.prints = true) :
    (logCurlRequest c method json u .undefined : Js E R Unit).result = .ok () := by
  have he : (JsVal.undefined.orElse (.str "")).toJsString = .ok "" := rfl
  by_cases ht : json.truthy = true
  · have hp := h ht
    unfold JsVal.prints at hp
    cases hj : json.toJsString with
    | error e => rw [hj] at hp; simp at hp
    | ok text =>
      simp [logCurlRequest, Js.bind_eq, Js.pure_eq, Js.result_bind, Js.lift, Js.out, ht, hj, he]
  · simp [logCurlRequest, Js.bind_eq, Js.pure_eq, Js.result_bind, Js.lift, Js.out, ht, he]

theorem Js.lift_bind {E R α β : Type} (x : Except String α) (f : α → Js E R β) :
    Js.bind (Js.lift x) f
      = (match x with
        | .ok a => f a
        | .error e => { steps := [], result := .error e }) := by
  cases x <;> simp [Js.bind, Js.lift]

theorem Js.out_bind {E R β : Type} (o : Output E R) (f : Unit → Js E R β) :
    Js.bind (Js.out o) f = { steps := .out o :: (f ()).steps, result := (f ()).result } := by
  simp [Js.bind, Js.out]

theorem tail_requests {E R : Type} (log : Js E R Unit) (hlog : requests log.steps = [])
    (o : Output E R) (verb : Verb) (params : RequestParams)
    (handler : E → R → List (Output E R)) :
    requests (Js.bind log fun _ =>
        { steps := [.out o, .request verb params handler], result := .ok () }).steps
      = (match log.result with
        | .ok _ => [(verb, params)]
        | .error _ => []) := by
  rw [Js.steps_bind, requests_append, hlog]
  cases log.result <;> simp [requests]

theorem tail_result {E R : Type} (log : Js E R Unit) (o : Output E R) (verb : Verb)
    (params : RequestParams) (handler : E → R → List (Output E R)) :
    (Js.bind log fun _ =>
        ({ steps := [.out o, .request verb params handler], result := .ok () } :
          Js E R Unit)).result
      = (match log.result with
        | .ok _ => .ok ()
        | .error e => .error e) := by
  rw [Js.result_bind]
  cases log.result <;> simp

theorem tail_callbacks {E R : Type} (transport : Verb → RequestParams → List (E × R))
    (log : Js E R Unit) (hlog : requests log.steps = [])
    (hcb : callbacks (run transport log.steps) = [])
    (o label : Output E R) (ho : callbacks [o] = []) (hl : callbacks [label] = [])
    (verb : Verb) (params : RequestParams) :
    callbacks (run transport (Js.bind log fun _ =>
        { steps := [.out o, .request verb params
            fun error response => [label, .callback error response]],
          result := .ok () }).steps)
      = (match log.result with
        | .ok _ => transport verb params
        | .error _ => []) := by
  rw [Js.steps_bind, run_append _ _ _ hlog, callbacks_append, hcb]
  cases log.result with
  | error e => simp [run, callbacks]
  | ok u =>
    cases o <;> simp_all [run, callbacks, callbacks_handler]

theorem tail_callbacks_timeEnd {E R : Type}
    (transport : Verb → RequestParams → List (E × R))
    (log : Js E R Unit) (hlog : requests log.steps = [])
    (hcb : callbacks (run transport log.steps) = [])
    (started ended : String) (verb : Verb) (params : RequestParams) :
    callbacks (run transport (Js.bind log fun _ =>
        { steps := [.out (.consoleTime started), .request verb params
            fun error response => [.consoleTimeEnd ended, .callback error response]],
          result := .ok () }).steps)
      = (match log.result with
        | .ok _ => transport verb params
        | .error _ => []) :=
  tail_callbacks transport log hlog hcb (.consoleTime started) (.consoleTimeEnd ended) rfl rfl
    verb params

theorem tail_callbacks_time {E R : Type}
    (transport : Verb → RequestParams → List (E × R))
    (log : Js E R Unit) (hlog : requests log.steps = [])
    (hcb : callbacks (run transport log.steps) = [])
    (started ended : String) (verb : Verb) (params : RequestParams) :
    callbacks (run transport (Js.bind log fun _ =>
        { steps := [.out (.consoleTime started), .request verb params
            fun error response => [.consoleTime ended, .callback error response]],
          result := .ok () }).steps)
      = (match log.result with
        | .ok _ => transport verb params
        | .error _ => []) :=
  tail_callbacks transport log hlog hcb (.consoleTime started) (.consoleTime ended) rfl rfl
    verb params

theorem requests_invoke_mem {E R : Type} (c : Client) (op : Operation)
    (vp : Verb × RequestParams) (h : vp ∈ requests (invoke c op : Js E R Unit).steps) :
    vp.1 = listedVerb op ∧
      ∃ (path : String) (data : JsVal),
        vp.2 = (if isWrite op = true ∨ isDelete op = true then getRequestParamsWrite c path data
          else getRequestParamsRead c path) := by
  cases op <;>
    simp only [invoke, players.list, player.create, player.delete, player.get, player.patch,
      player.publish, player.config.get, player.config.put, player.config.patch, embeds.list,
      embed.create, embed.delete, embed.get, embed.publish, embed.config.get,
      embed.config.getMerged, embed.config.put, embed.config.patch, Js.bind_eq, Js.pure_eq,
      Js.lift_bind] at h <;>
    (repeat' split at h) <;>
    simp only [Js.out_bind, requests, tail_requests _ (requests_logCurlRequest _ _ _ _ _),
      Js.request, List.not_mem_nil, List.append_eq, List.nil_append] at h <;>
    (try split at h) <;>
    simp only [List.mem_singleton, List.not_mem_nil] at h <;>
    subst h <;>
    refine ⟨rfl, ?_⟩ <;>
    simp only [isWrite, isDelete, or_true, true_or, or_self, if_true, if_false,
      Bool.false_eq_true] <;>
    first
      | exact ⟨_, .undefined, rfl⟩
      | exact ⟨_, _, rfl⟩

theorem callbacks_invoke {E R : Type} (c : Client) (op : Operation)
    (transport : Verb → RequestParams → List (E × R)) :
    callbacks (run transport (invoke c op).steps)
      = ((requests (invoke c op : Js E R Unit).steps).map fun vp =>
          transport vp.1 vp.2).flatten := by
  cases op <;>
    simp only [invoke, players.list, player.create, player.delete, player.get, player.patch,
      player.publish, player.config.get, player.config.put, player.config.patch, embeds.list,
      embed.create, embed.delete, embed.get, embed.publish, embed.config.get,
      embed.config.getMerged, embed.config.put, embed.config.patch, Js.bind_eq, Js.pure_eq,
      Js.lift_bind] <;>
    (repeat' split) <;>
    simp only [Js.out_bind, requests, run, callbacks,
      tail_requests _ (requests_logCurlRequest _ _ _ _ _),
      tail_callbacks_timeEnd transport _ (requests_logCurlRequest _ _ _ _ _)
        (callbacks_run_logCurlRequest transport _ _ _ _ _),
      tail_callbacks_time transport _ (requests_logCurlRequest _ _ _ _ _)
        (callbacks_run_logCurlRequest transport _ _ _ _ _),
      Js.request, List.append_eq, List.nil_append] <;>
    (try split) <;>
    simp [callbacks_append, callbacks, callbacks_handler]

/-! ## Lemmas on objects and the header loop -/

theorem objGet_objSet_same (o : List (String × String)) (k v : String) :
    objGet (objSet o k v) k = some v := by
  induction o with
  | nil => simp [objSet, objGet]
  | cons kv rest ih =>
    obtain ⟨k', v'⟩ := kv
    by_cases h : k' = k
    · simp [objSet, objGet, h]
    · simp [objSet, objGet, h, ih]

theorem objGet_objSet_other (o : List (String × String)) (k v j : String) (h : j ≠ k) :
    objGet (objSet o k v) j = objGet o j := by
  induction o with
  | nil => simp [objSet, objGet, Ne.symm h]
  | cons kv rest ih =>
    obtain ⟨k', v'⟩ := kv
    by_cases hk : k' = k
    · subst hk
      simp [objSet, objGet, Ne.symm h]
    · by_cases hj : k' = j
      · subst hj
        simp [objSet, objGet, hk]
      · simp [objSet, objGet, hk, hj, ih]

theorem objGet_eq_none_of_not_mem (o : List (String × String)) (k : String)
    (h : k ∉ o.map Prod.fst) : objGet o k = none := by
  induction o with
  | nil => rfl
  | cons kv rest ih =>
    obtain ⟨k', v'⟩ := kv
    simp only [List.map_cons, List.mem_cons, not_or] at h
    simp [objGet, Ne.symm h.1, ih h.2]

theorem objGet_copy_loop (props : List (String × String)) (k : String) (ks : List String) :
    ∀ headers : List (String × String),
      objGet (ks.foldl (fun headers customHeader =>
          match objGet props customHeader with
          | some v => objSet headers customHeader v
          | none => headers) headers) k
        = if k ∈ ks then (objGet props k).orElse (fun _ => objGet headers k)
          else objGet headers k := by
  induction ks with
  | nil => intro headers; simp
  | cons j ks ih =>
    intro headers
    rw [List.foldl_cons, ih]
    by_cases hj : j = k
    · subst hj
      cases hp : objGet props j with
      | none => simp [hp]
      | some v => simp [hp, objGet_objSet_same]
    · have hkj : k ≠ j := fun h => hj h.symm
      cases hp : objGet props j with
      | none => simp [hkj]
      | some v => simp [hkj, objGet_objSet_other _ _ _ _ hkj]

theorem objGet_copyCustomHeaders (a : JsArray) (k : String) :
    objGet (copyCustomHeaders a) k = objGet a.props k := by
  unfold copyCustomHeaders
  rw [objGet_copy_loop]
  by_cases hk : k ∈ a.props.map Prod.fst
  · rw [if_pos hk]
    cases objGet a.props k <;> simp [objGet, Option.orElse]
  · rw [if_neg hk, objGet_eq_none_of_not_mem _ _ hk]
    rfl

theorem headers_read_authorization (c : Client) (path t : String)
    (ht : c.apiInfo.accessToken = some t) (hne : t ≠ "") :
    objGet (getRequestParamsRead c path).headers "Authorization" = some ("Bearer " ++ t) := by
  simp [getRequestParamsRead, ht, optVal, JsVal.truthy, hne, optStr, objGet_objSet_same]

theorem headers_read_other (c : Client) (path k : String) (hk : k ≠ "Authorization") :
    objGet (getRequestParamsRead c path).headers k = objGet c.customHeaders.props k := by
  unfold getRequestParamsRead
  simp only
  split
  · rw [objGet_objSet_other _ _ _ _ hk, objGet_copyCustomHeaders]
  · rw [objGet_copyCustomHeaders]

theorem headers_read_no_token (c : Client) (path k : String)
    (ht : (optVal c.apiInfo.accessToken).truthy = false) :
    objGet (getRequestParamsRead c path).headers k = objGet c.customHeaders.props k := by
  simp [getRequestParamsRead, ht, objGet_copyCustomHeaders]

theorem write_url (c : Client) (path : String) (data : JsVal) :
    (getRequestParamsWrite c path data).url = (getRequestParamsRead c path).url := by
  unfold getRequestParamsWrite
  simp only
  split <;> rfl

theorem write_strictSSL (c : Client) (path : String) (data : JsVal) :
    (getRequestParamsWrite c path data).strictSSL = (getRequestParamsRead c path).strictSSL := by
  unfold getRequestParamsWrite
  simp only
  split <;> rfl

theorem write_headers (c : Client) (path : String) (data : JsVal) :
    (getRequestParamsWrite c path data).headers
      = objSet (getRequestParamsRead c path).headers "content-type" "application/json" := by
  unfold getRequestParamsWrite
  simp only
  split <;> rfl

theorem write_body (c : Client) (path : String) (data : JsVal) :
    (getRequestParamsWrite c path data).body = if data.truthy then some data else none := by
  unfold getRequestParamsWrite
  simp only
  split <;> rfl

/-! ## Lemmas on calls that return -/

theorem written_toJsString (v : JsVal) (s : String) (h : written v = some s) :
    v.toJsString = .ok s := by
  cases v <;> simp [written] at h <;> subst h <;> rfl

theorem truthy_orElse (branch : JsVal) (h : branch.truthy = true) :
    branch.orElse (.str "") = branch := by
  simp [JsVal.orElse, h]

theorem log_headers_ok {E R : Type} (c : Client) (method path u : String)
    (hh : objGet c.customHeaders.props "toString" = none) :
    (logCurlRequest c method (.obj (getRequestParamsRead c path).headers) u .undefined :
      Js E R Unit).result = .ok () := by
  apply result_logCurlRequest
  intro _
  simp [JsVal.prints, JsVal.toJsString, headers_read_other c path "toString" (by decide), hh]

theorem log_null_ok {E R : Type} (c : Client) (method u : String) :
    (logCurlRequest c method .null u .undefined : Js E R Unit).result = .ok () :=
  result_logCurlRequest c method .null u (fun h => absurd h (by decide))

theorem log_body_ok {E R : Type} (c : Client) (method u : String) (json : JsVal)
    (hj : json.prints = true) :
    (logCurlRequest c method json u .undefined : Js E R Unit).result = .ok () :=
  result_logCurlRequest c method json u (fun _ => hj)

theorem read_url (c : Client) (path : String) :
    (getRequestParamsRead c path).url = c.url ++ path := rfl

theorem configuration_slash (s b : String) :
    s ++ "/configuration" ++ ("/" ++ b) = s ++ "/configuration/" ++ b := by
  rw [String.append_assoc s, String.append_assoc s, ← String.append_assoc "/configuration"]
  rfl

theorem merged_query (s : String) :
    s ++ "/configuration/merged?" ++ "playerBranch=" = s ++ "/configuration/merged?playerBranch=" := by
  rw [String.append_assoc]
  rfl

theorem Js.ok_bind {E R α β : Type} (a : α) (f : α → Js E R β) :
    Js.bind { steps := [], result := .ok a } f = f a := by
  simp [Js.bind]

theorem invoke_listed {E R : Type} (c : Client) (op : Operation) (suffix : String)
    (hs : listedSuffix op = some suffix) (hb : branchGiven op = true)
    (hj : bodyPrints op = true) (hh : objGet c.customHeaders.props "toString" = none) :
    (invoke c op : Js E R Unit).result = .ok () ∧
      ∃ params : RequestParams,
        requests (invoke c op : Js E R Unit).steps = [(listedVerb op, params)] ∧
        params.url = c.url ++ suffix := by
  cases op with
  | playersList =>
    simp only [listedSuffix, Option.some.injEq] at hs
    subst hs
    simp [invoke, players.list, Js.bind_eq, Js.pure_eq, Js.lift_bind, Js.out_bind, requests,
      tail_requests _ (requests_logCurlRequest _ _ _ _ _), tail_result, Js.request,
      log_headers_ok, hh, listedVerb, read_url]
  | playerCreate json =>
    simp only [listedSuffix, Option.some.injEq] at hs
    subst hs
    simp only [bodyPrints] at hj
    simp [invoke, player.create, Js.bind_eq, Js.pure_eq, Js.lift_bind, Js.out_bind, requests,
      tail_requests _ (requests_logCurlRequest _ _ _ _ _), tail_result, Js.request,
      log_body_ok, hj, listedVerb, write_url, read_url]
  | playerGet playerId | embedsList playerId | playerDelete playerId =>
    simp only [listedSuffix, Option.pure_def, Option.bind_eq_bind, Option.bind_eq_some,
      Option.some.injEq] at hs
    obtain ⟨id, hid, rfl⟩ := hs
    have hp := written_toJsString _ _ hid
    simp [invoke, player.get, embeds.list, player.delete, Js.bind_eq, Js.pure_eq, Js.lift_bind,
      Js.out_bind, requests, tail_requests _ (requests_logCurlRequest _ _ _ _ _), tail_result,
      Js.request, log_headers_ok, hh, hp, listedVerb, write_url, read_url]
  | playerPatch playerId json | playerPublish playerId json | playerConfigPut playerId json
      | playerConfigPatch playerId json | embedCreate playerId json =>
    simp only [listedSuffix, Option.pure_def, Option.bind_eq_bind, Option.bind_eq_some,
      Option.some.injEq] at hs
    obtain ⟨id, hid, rfl⟩ := hs
    have hp := written_toJsString _ _ hid
    simp only [bodyPrints] at hj
    simp [invoke, player.patch, player.publish, player.config.put, player.config.patch,
      embed.create, Js.bind_eq, Js.pure_eq, Js.lift_bind,
      Js.out_bind, requests, tail_requests _ (requests_logCurlRequest _ _ _ _ _), tail_result,
      Js.request, log_body_ok, hj, hp, listedVerb, write_url, read_url]
  | playerConfigGet playerId branch =>
    simp only [listedSuffix, Option.pure_def, Option.bind_eq_bind, Option.bind_eq_some,
      Option.some.injEq] at hs
    obtain ⟨id, hid, b, hbr, rfl⟩ := hs
    have hp := written_toJsString _ _ hid
    simp only [branchGiven] at hb
    have hbt : (branch.orElse (.str "")).toJsString = .ok b := by
      rw [truthy_orElse _ hb]
      exact written_toJsString _ _ hbr
    simp [invoke, player.config.get, Js.bind_eq, Js.pure_eq, Js.lift_bind,
      Js.out_bind, requests, tail_requests _ (requests_logCurlRequest _ _ _ _ _), tail_result,
      Js.request, log_headers_ok, hh, hp, hbt, listedVerb, write_url, read_url]
  | embedGet playerId embedId | embedDelete playerId embedId =>
    simp only [listedSuffix, Option.pure_def, Option.bind_eq_bind, Option.bind_eq_some,
      Option.some.injEq] at hs
    obtain ⟨id, hid, eid, hembed, rfl⟩ := hs
    have hp := written_toJsString _ _ hid
    have he := written_toJsString _ _ hembed
    simp [invoke, embed.get, embed.delete, Js.bind_eq, Js.pure_eq, Js.lift_bind,
      Js.out_bind, requests, tail_requests _ (requests_logCurlRequest _ _ _ _ _), tail_result,
      Js.request, log_null_ok, hp, he, listedVerb, write_url, read_url]
  | embedPublish playerId embedId json | embedConfigPut playerId embedId json
      | embedConfigPatch playerId embedId json =>
    simp only [listedSuffix, Option.pure_def, Option.bind_eq_bind, Option.bind_eq_some,
      Option.some.injEq] at hs
    obtain ⟨id, hid, eid, hembed, rfl⟩ := hs
    have hp := written_toJsString _ _ hid
    have he := written_toJsString _ _ hembed
    simp only [bodyPrints] at hj
    simp [invoke, embed.publish, embed.config.put, embed.config.patch, Js.bind_eq, Js.pure_eq,
      Js.lift_bind, Js.out_bind, requests, tail_requests _ (requests_logCurlRequest _ _ _ _ _),
      tail_result, Js.request, log_body_ok, hj, hp, he, listedVerb, write_url, read_url]
  | embedConfigGet playerId embedId branch =>
    simp only [listedSuffix, Option.pure_def, Option.bind_eq_bind, Option.bind_eq_some,
      Option.some.injEq] at hs
    obtain ⟨id, hid, eid, hembed, b, hbr, rfl⟩ := hs
    have hp := written_toJsString _ _ hid
    have he := written_toJsString _ _ hembed
    have hbt := written_toJsString _ _ hbr
    simp only [branchGiven] at hb
    simp [invoke, embed.config.get, Js.bind_eq, Js.pure_eq, Js.lift_bind, Js.ok_bind,
      Js.out_bind, requests, tail_requests _ (requests_logCurlRequest _ _ _ _ _), tail_result,
      Js.request, log_null_ok, hp, he, hb, hbt, listedVerb, write_url, read_url,
      configuration_slash]
  | embedConfigGetMerged playerId playerBranch embedId embedBranch =>
    simp only [listedSuffix, Option.pure_def, Option.bind_eq_bind, Option.bind_eq_some,
      Option.some.injEq] at hs
    obtain ⟨id, hid, eid, hembed, pb, hpb, eb, heb, rfl⟩ := hs
    have hp := written_toJsString _ _ hid
    have he := written_toJsString _ _ hembed
    have h3 := written_toJsString _ _ hpb
    have h4 := written_toJsString _ _ heb
    simp [invoke, embed.config.getMerged, Js.bind_eq, Js.pure_eq, Js.lift_bind,
      Js.out_bind, requests, tail_requests _ (requests_logCurlRequest _ _ _ _ _), tail_result,
      Js.request, log_null_ok, hp, he, h3, h4, listedVerb, write_url, read_url, merged_query]

theorem requests_by_result {E R : Type} (c : Client) (op : Operation) :
    ((∃ e : String, (invoke c op : Js E R Unit).result = .error e) ∧
        requests (invoke c op : Js E R Unit).steps = []) ∨
      ((invoke c op : Js E R Unit).result = .ok () ∧
        ∃ params : RequestParams,
          requests (invoke c op : Js E R Unit).steps = [(listedVerb op, params)]) := by
  cases op <;>
    simp only [invoke, players.list, player.create, player.delete, player.get, player.patch,
      player.publish, player.config.get, player.config.put, player.config.patch, embeds.list,
      embed.create, embed.delete, embed.get, embed.publish, embed.config.get,
      embed.config.getMerged, embed.config.put, embed.config.patch, Js.bind_eq, Js.pure_eq,
      Js.lift_bind, Js.ok_bind] <;>
    (repeat' split) <;>
    simp only [Js.out_bind, requests, tail_requests _ (requests_logCurlRequest _ _ _ _ _),
      tail_result, Js.request, List.append_eq, List.nil_append] <;>
    (try split) <;>
    simp_all [listedVerb, log_null_ok]

/-! ## The operations: verb, URL, completion -/

/-- C2 (counterexample): `embed.config.get('p1', 'e1', '')` requests
`.../configuration`, not the listed suffix with the branch `''` written in
(`.../configuration/`); `player.config.get('p1', 0)` requests
`.../configuration/`, not `.../configuration/0`; `player.create` with the body
`{toString: 'x'}`, and `players.list` with a custom header `toString`
registered, throw `TypeError` while the curl line is built and call no
transport method. -/
theorem C2_counterexample_no_listed_request :
    listedSuffix (.embedConfigGet (.str "p1") (.str "e1") (.str ""))
      = some "/players/p1/embeds/e1/configuration/" ∧
    (requests (invoke (newClient { accountId := .str "123" } "https://h/v1/accounts/123")
        (.embedConfigGet (.str "p1") (.str "e1") (.str "")) : Js Unit Unit Unit).steps).map
      (fun vp => vp.2.url) = ["https://h/v1/accounts/123/players/p1/embeds/e1/configuration"] ∧
    listedSuffix (.playerConfigGet (.str "p1") (.num ⟨false, 0⟩))
      = some "/players/p1/configuration/0" ∧
    (requests (invoke (newClient { accountId := .str "123" } "https://h/v1/accounts/123")
        (.playerConfigGet (.str "p1") (.num ⟨false, 0⟩)) : Js Unit Unit Unit).steps).map
      (fun vp => vp.2.url) = ["https://h/v1/accounts/123/players/p1/configuration/"] ∧
    requests (invoke (newClient { accountId := .str "123" } "https://h/v1/accounts/123")
        (.playerCreate (.obj [("toString", "x")])) : Js Unit Unit Unit).steps = [] ∧
    (invoke (newClient { accountId := .str "123" } "https://h/v1/accounts/123")
        (.playerCreate (.obj [("toString", "x")])) : Js Unit Unit Unit).result
      = .error "TypeError: Cannot convert object to primitive value" ∧
    requests (invoke
        { apiInfo := { accountId := .str "123" }, url := "https://h/v1/accounts/123",
          customHeaders := { length := 0, props := [("toString", "t")] } }
        .playersList : Js Unit Unit Unit).steps = [] := by
  refine ⟨by decide, by decide, by decide, by decide, by decide, rfl, by decide⟩

/-- C2 (amended): for each of the eighteen operations, when the identifiers and
branches of the call are strings or numbers, the optional branch of `config.get`
is given (truthy), the string conversion of the JSON body does not throw (the
body has no own property `toString`) and no custom header named `toString` is
registered, the call returns and calls the transport exactly once, with the verb
of the specification's list and with a descriptor whose URL is the account URL
followed by the listed path suffix, the identifiers written in as given (a
string unchanged whatever characters it holds, a number in decimal).  In
particular `player.config.get('p1', 'preview', cb)` issues GET on
`.../players/p1/configuration/preview`, and
`embed.config.getMerged('p1', 'master', 'e1', 'preview', cb)` issues GET on
`.../players/p1/embeds/e1/configuration/merged?playerBranch=master&embedBranch=preview`. -/
theorem C2_operation_issues_listed_request {E R : Type} (c : Client) (op : Operation)
    (suffix : String) (hs : listedSuffix op = some suffix) (hb : branchGiven op = true)
    (hj : bodyPrints op = true) (hh : objGet c.customHeaders.props "toString" = none) :
    (invoke c op : Js E R Unit).result = .ok () ∧
    (∃ params : RequestParams,
      requests (invoke c op : Js E R Unit).steps = [(listedVerb op, params)] ∧
      params.url = c.url ++ suffix) ∧
    (∃ params : RequestParams,
      requests (player.config.get c (.str "p1") (.str "preview") : Js E R Unit).steps
        = [(Verb.get, params)] ∧
      params.url = c.url ++ "/players/p1/configuration/preview") ∧
    (∃ params : RequestParams,
      requests (embed.config.getMerged c (.str "p1") (.str "master") (.str "e1")
        (.str "preview") : Js E R Unit).steps = [(Verb.get, params)] ∧
      params.url = c.url ++
        "/players/p1/embeds/e1/configuration/merged?playerBranch=master&embedBranch=preview") ∧
    (∃ params : RequestParams,
      requests (player.get c (.str "a b/../c?d=#") : Js E R Unit).steps = [(Verb.get, params)] ∧
      params.url = c.url ++ "/players/a b/../c?d=#") ∧
    (∃ params : RequestParams,
      requests (embed.get c (.num ⟨false, 42⟩) (.num ⟨true, 7⟩) : Js E R Unit).steps
        = [(Verb.get, params)] ∧
      params.url = c.url ++ "/players/42/embeds/-7") := by
  refine ⟨(invoke_listed c op suffix hs hb hj hh).1, (invoke_listed c op suffix hs hb hj hh).2,
    ?_, ?_, ?_, ?_⟩
  · exact (invoke_listed (E := E) (R := R) c (.playerConfigGet (.str "p1") (.str "preview"))
      "/players/p1/configuration/preview" (by decide) (by decide) (by decide) hh).2
  · exact (invoke_listed (E := E) (R := R) c
      (.embedConfigGetMerged (.str "p1") (.str "master") (.str "e1") (.str "preview"))
      "/players/p1/embeds/e1/configuration/merged?playerBranch=master&embedBranch=preview"
      (by decide) (by decide) (by decide) hh).2
  · exact (invoke_listed (E := E) (R := R) c (.playerGet (.str "a b/../c?d=#"))
      "/players/a b/../c?d=#" (by decide) (by decide) (by decide) hh).2
  · exact (invoke_listed (E := E) (R := R) c (.embedGet (.num ⟨false, 42⟩) (.num ⟨true, 7⟩))
      "/players/42/embeds/-7" (by decide) (by decide) (by decide) hh).2

/-- Witness of C2: `player.config.get('p1', 'preview', cb)` on the closure of
account 123 with the default base URL and version. -/
theorem C2_operation_issues_listed_request_witness :
    moduleExports { accountId := .num ⟨false, 123⟩ }
      = some (newClient { accountId := .num ⟨false, 123⟩ }
          "https://players.api.brightcove.com/v1/accounts/123") ∧
    listedSuffix (.playerConfigGet (.str "p1") (.str "preview"))
      = some "/players/p1/configuration/preview" ∧
    ∃ params : RequestParams,
      requests (invoke (newClient { accountId := .num ⟨false, 123⟩ }
          "https://players.api.brightcove.com/v1/accounts/123")
        (.playerConfigGet (.str "p1") (.str "preview")) : Js Unit Unit Unit).steps
        = [(Verb.get, params)] ∧
      params.url
        = "https://players.api.brightcove.com/v1/accounts/123/players/p1/configuration/preview" := by
  refine ⟨by decide, by decide, ?_⟩
  obtain ⟨params, hreq, hurl⟩ :=
    (C2_operation_issues_listed_request (E := Unit) (R := Unit)
      (newClient { accountId := .num ⟨false, 123⟩ }
        "https://players.api.brightcove.com/v1/accounts/123")
      (.playerConfigGet (.str "p1") (.str "preview")) "/players/p1/configuration/preview"
      (by decide) (by decide) (by decide) (by decide)).2.1
  exact ⟨params, hreq, by rw [hurl]; decide⟩

/-- C7: for every operation, every argument list and every transport, the caller's
callback is called with exactly the `(error, response)` pairs with which the
transport completes the calls that the operation makes, in order and unchanged,
and is not called otherwise.  The operation makes at most one call: exactly one,
with the listed verb, when it returns, and none when it throws (then the callback
is not called).  In particular a completion with `error = null` and a response
of status 404 reaches the callback as `error = null` and that same response. -/
theorem C7_callback_receives_transport_result {E R : Type} (c : Client) (op : Operation)
    (transport : Verb → RequestParams → List (E × R)) :
    callbacks (run transport (invoke c op).steps)
      = ((requests (invoke c op : Js E R Unit).steps).map fun vp =>
          transport vp.1 vp.2).flatten ∧
    ((invoke c op : Js E R Unit).result = .ok () →
      ∃ params : RequestParams,
        requests (invoke c op : Js E R Unit).steps = [(listedVerb op, params)] ∧
        callbacks (run transport (invoke c op).steps) = transport (listedVerb op) params) ∧
    (∀ e : String, (invoke c op : Js E R Unit).result = .error e →
      requests (invoke c op : Js E R Unit).steps = [] ∧
      callbacks (run transport (invoke c op).steps) = []) ∧
    (∀ body : String,
      callbacks (run (fun _ _ => [((none : Option String), Response.mk 404 body)])
          (invoke c op).steps)
        = (requests (invoke c op : Js (Option String) Response Unit).steps).map
            fun _ => (none, Response.mk 404 body)) ∧
    callbacks (run (fun _ _ => [((none : Option String), Response.mk 404 "Not Found")])
        (player.config.get (newClient { accountId := .str "123" } "https://h/v1/accounts/123")
          (.str "p1") (.str "preview")).steps)
      = [(none, Response.mk 404 "Not Found")] := by
  have hcb := callbacks_invoke c op transport
  refine ⟨hcb, ?_, ?_, ?_, by decide⟩
  · intro hok
    rcases requests_by_result (E := E) (R := R) c op with ⟨⟨e, he⟩, -⟩ | ⟨-, params, hreq⟩
    · rw [hok] at he
      exact absurd he (by simp)
    · exact ⟨params, hreq, by rw [hcb, hreq]; simp⟩
  · intro e herr
    rcases requests_by_result (E := E) (R := R) c op with ⟨-, hreq⟩ | ⟨hok, -⟩
    · exact ⟨hreq, by rw [hcb, hreq]; rfl⟩
    · rw [herr] at hok
      exact absurd hok (by simp)
  · intro body
    rw [callbacks_invoke]
    induction requests (invoke c op : Js (Option String) Response Unit).steps with
    | nil => rfl
    | cons vp rest ih => simp

/-- C10: every descriptor built by `getRequestParamsRead` and by
`getRequestParamsWrite`, for every configuration, every state of the custom
headers, every path and every body, has `strictSSL = false`; this holds after
any `addCustomHeader` call and for every descriptor that an operation sends. -/
theorem C10_strictSSL_is_false {E R : Type} (c : Client) (path : String) (data : JsVal)
    (op : Operation) (toLength : String → Option Nat) (key value : String) :
    (getRequestParamsRead c path).strictSSL = false ∧
    (getRequestParamsWrite c path data).strictSSL = false ∧
    (∀ c1 : Client, addCustomHeader toLength c key value = .ok c1 →
      (getRequestParamsRead c1 path).strictSSL = false ∧
      (getRequestParamsWrite c1 path data).strictSSL = false) ∧
    (∀ vp ∈ requests (invoke c op : Js E R Unit).steps, vp.2.strictSSL = false) := by
  refine ⟨rfl, by rw [write_strictSSL]; rfl, fun c1 _ => ⟨rfl, by rw [write_strictSSL]; rfl⟩, ?_⟩
  intro vp hvp
  obtain ⟨-, path, data, hparams⟩ := requests_invoke_mem c op vp hvp
  rw [hparams]
  split
  · rw [write_strictSSL]; rfl
  · rfl

/-! ## Headers, authentication and body -/

/-- C3: when an access token `t` is configured (a non-empty string), then for
every state of the custom headers, every path and every body the header mapping
built by `getRequestParamsRead` and by `getRequestParamsWrite` has
`Authorization = 'Bearer ' + t`; every other header (`content-type` of a write
apart) is a registered custom header with its registered value; and the
descriptor is the same whatever email and password are configured, so that it
carries nothing derived from them (the account URL of the closure does not
depend on them either). -/
theorem C3_bearer_header_and_no_basic_credentials (c : Client) (t : String)
    (ht : c.apiInfo.accessToken = some t) (hne : t ≠ "") (path : String) (data : JsVal) :
    objGet (getRequestParamsRead c path).headers "Authorization" = some ("Bearer " ++ t) ∧
    objGet (getRequestParamsWrite c path data).headers "Authorization"
      = some ("Bearer " ++ t) ∧
    (∀ k : String, k ≠ "Authorization" →
      objGet (getRequestParamsRead c path).headers k = objGet c.customHeaders.props k) ∧
    (∀ k : String, k ≠ "Authorization" → k ≠ "content-type" →
      objGet (getRequestParamsWrite c path data).headers k = objGet c.customHeaders.props k) ∧
    (∀ email password : Option String,
      getRequestParamsRead
          { c with apiInfo := { c.apiInfo with email := email, password := password } } path
        = getRequestParamsRead c path ∧
      getRequestParamsWrite
          { c with apiInfo := { c.apiInfo with email := email, password := password } } path data
        = getRequestParamsWrite c path data) ∧
    (∀ (info : ApiInfo) (email password : Option String),
      (moduleExports { info with email := email, password := password }).map Client.url
        = (moduleExports info).map Client.url) := by
  refine ⟨headers_read_authorization c path t ht hne, ?_, fun k hk => headers_read_other c path k hk,
    ?_, fun email password => ⟨rfl, rfl⟩, ?_⟩
  · rw [write_headers, objGet_objSet_other _ _ _ _ (by decide)]
    exact headers_read_authorization c path t ht hne
  · intro k hk hct
    rw [write_headers, objGet_objSet_other _ _ _ _ hct]
    exact headers_read_other c path k hk
  · intro info email password
    have hsame : urlResolve (baseUrl { info with email := email, password := password })
        (urlPath { info with email := email, password := password })
        = urlResolve (baseUrl info) (urlPath info) := rfl
    unfold moduleExports
    rw [hsame]
    cases urlResolve (baseUrl info) (urlPath info) <;> rfl

/-- Witness of C3: token `tok`, a registered custom header `Authorization`
holding a basic credential, email and password configured. -/
theorem C3_bearer_header_and_no_basic_credentials_witness :
    objGet (getRequestParamsRead
      { apiInfo := { accountId := .num ⟨false, 123⟩, accessToken := some "tok",
                     email := some "user@example.com", password := some "secret" }
        url := "https://players.api.brightcove.com/v1/accounts/123"
        customHeaders := { length := 0, props := [("Authorization", "Basic dXNlcjpzZWNyZXQ=")] } }
      "/players").headers "Authorization" = some ("Bearer " ++ "tok") :=
  (C3_bearer_header_and_no_basic_credentials
    { apiInfo := { accountId := .num ⟨false, 123⟩, accessToken := some "tok",
                   email := some "user@example.com", password := some "secret" }
      url := "https://players.api.brightcove.com/v1/accounts/123"
      customHeaders := { length := 0, props := [("Authorization", "Basic dXNlcjpzZWNyZXQ=")] } }
    "tok" rfl (by decide) "/players" .undefined).1

/-- C4 (the code at the failing input): with no access token and with email
`user@example.com` and password `secret` configured, the closure is created with
the account URL of account 123, and the descriptors of `getRequestParamsRead` and
`getRequestParamsWrite` hold no credentials at all (no `Authorization` header;
the only fields are `url`, `strictSSL`, `headers` and `body`), and they are the
descriptors of the same configuration without email and password; yet the curl
line logged for `players.list` presents the request as sent with
`-u user@example.com`. -/
theorem C4_no_basic_credentials_in_descriptor :
    moduleExports { accountId := .num ⟨false, 123⟩, email := some "user@example.com",
                    password := some "secret" }
      = some (newClient { accountId := .num ⟨false, 123⟩, email := some "user@example.com",
                          password := some "secret" }
          "https://players.api.brightcove.com/v1/accounts/123") ∧
    getRequestParamsRead
        (newClient { accountId := .num ⟨false, 123⟩, email := some "user@example.com",
                     password := some "secret" }
          "https://players.api.brightcove.com/v1/accounts/123") "/players"
      = { url := "https://players.api.brightcove.com/v1/accounts/123/players"
          strictSSL := false
          headers := []
          body := none } ∧
    getRequestParamsWrite
        (newClient { accountId := .num ⟨false, 123⟩, email := some "user@example.com",
                     password := some "secret" }
          "https://players.api.brightcove.com/v1/accounts/123") "/players" (.str "x")
      = { url := "https://players.api.brightcove.com/v1/accounts/123/players"
          strictSSL := false
          headers := [("content-type", "application/json")]
          body := some (.str "x") } ∧
    (moduleExports { accountId := .num ⟨false, 123⟩, email := some "user@example.com",
                     password := some "secret" }).map
        (fun c => getRequestParamsRead c "/players")
      = (moduleExports { accountId := .num ⟨false, 123⟩ }).map
        (fun c => getRequestParamsRead c "/players") ∧
    infoLines (run (fun _ _ => [((), ())])
        (players.list (newClient { accountId := .num ⟨false, 123⟩,
                                   email := some "user@example.com", password := some "secret" }
          "https://players.api.brightcove.com/v1/accounts/123")).steps)
      = ["", "curl command:",
         "> curl -k -X GET -u user@example.com --data '[object Object]' " ++
           " https://players.api.brightcove.com/v1/accounts/123/players"] := by
  refine ⟨by decide, by decide, by decide, by decide, by decide⟩

/-- C5 (counterexample): `player.delete` and `embed.delete`, which the claim
counts among the read operations, send `content-type: application/json`; and
`player.create` with the body `{toString: 'x'}` throws and sends no descriptor. -/
theorem C5_counterexample_delete_sends_content_type :
    isWrite (.playerDelete (.str "p1")) = false ∧
    (requests (invoke (newClient { accountId := .num ⟨false, 123⟩ } "https://h/v1/accounts/123")
        (.playerDelete (.str "p1")) : Js Unit Unit Unit).steps).map
      (fun vp => objGet vp.2.headers "content-type") = [some "application/json"] ∧
    isWrite (.embedDelete (.str "p1") (.str "e1")) = false ∧
    (requests (invoke (newClient { accountId := .num ⟨false, 123⟩ } "https://h/v1/accounts/123")
        (.embedDelete (.str "p1") (.str "e1")) : Js Unit Unit Unit).steps).map
      (fun vp => objGet vp.2.headers "content-type") = [some "application/json"] ∧
    isWrite (.playerCreate (.obj [("toString", "x")])) = true ∧
    requests (invoke (newClient { accountId := .num ⟨false, 123⟩ } "https://h/v1/accounts/123")
        (.playerCreate (.obj [("toString", "x")])) : Js Unit Unit Unit).steps = [] := by
  refine ⟨by decide, by decide, by decide, by decide, by decide, by decide⟩

/-- C5 (amended): with no custom header named `content-type` registered, every
descriptor sent by a write operation (create, patch, put, publish) or by one of
the two delete operations has `content-type = 'application/json'`, and every
descriptor sent by another operation (every get and every list) has no
`content-type` header; an operation sends exactly one descriptor, with the
listed verb, when it returns, and none when it throws. -/
theorem C5_content_type_by_operation {E R : Type} (c : Client) (op : Operation)
    (h : objGet c.customHeaders.props "content-type" = none) :
    (∀ vp ∈ requests (invoke c op : Js E R Unit).steps,
      vp.1 = listedVerb op ∧
      objGet vp.2.headers "content-type"
        = if isWrite op = true ∨ isDelete op = true then some "application/json" else none) ∧
    ((invoke c op : Js E R Unit).result = .ok () →
      ∃ params : RequestParams,
        requests (invoke c op : Js E R Unit).steps = [(listedVerb op, params)]) ∧
    (∀ e : String, (invoke c op : Js E R Unit).result = .error e →
      requests (invoke c op : Js E R Unit).steps = []) := by
  refine ⟨fun vp hvp => ?_, fun hok => ?_, fun e herr => ?_⟩
  · obtain ⟨hverb, path, data, hparams⟩ := requests_invoke_mem c op vp hvp
    refine ⟨hverb, ?_⟩
    rw [hparams]
    split
    · rw [write_headers, objGet_objSet_same]
    · rw [headers_read_other c path _ (by decide), h]
  · rcases requests_by_result (E := E) (R := R) c op with ⟨⟨e, he⟩, -⟩ | ⟨-, hreq⟩
    · rw [hok] at he
      exact absurd he (by simp)
    · exact hreq
  · rcases requests_by_result (E := E) (R := R) c op with ⟨-, hreq⟩ | ⟨hok, -⟩
    · exact hreq
    · rw [herr] at hok
      exact absurd hok (by simp)

/-- Witness of C5: `embeds.list` with one custom header registered. -/
theorem C5_content_type_by_operation_witness :
    objGet ([("x-trace", "1")] : List (String × String)) "content-type" = none ∧
    ∃ params : RequestParams,
      requests (invoke { apiInfo := { accountId := .num ⟨false, 123⟩ }
                         url := "https://h/v1/accounts/123"
                         customHeaders := { length := 0, props := [("x-trace", "1")] } }
        (.embedsList (.str "p1")) : Js Unit Unit Unit).steps = [(Verb.get, params)] ∧
      objGet params.headers "content-type" = none := by
  have hthm := C5_content_type_by_operation (E := Unit) (R := Unit)
    { apiInfo := { accountId := .num ⟨false, 123⟩ }
      url := "https://h/v1/accounts/123"
      customHeaders := { length := 0, props := [("x-trace", "1")] } }
    (.embedsList (.str "p1")) (by decide)
  obtain ⟨params, hreq⟩ := hthm.2.1 rfl
  have hmem : (Verb.get, params) ∈ requests (invoke
      { apiInfo := { accountId := .num ⟨false, 123⟩ }
        url := "https://h/v1/accounts/123"
        customHeaders := { length := 0, props := [("x-trace", "1")] } }
      (.embedsList (.str "p1")) : Js Unit Unit Unit).steps := by
    rw [hreq]
    exact List.mem_singleton.mpr rfl
  exact ⟨by decide, params, hreq, (hthm.1 _ hmem).2⟩

/-- C8 (counterexample): the JSON values `0`, `''`, `false` and `null` given as
body are not attached. -/
theorem C8_counterexample_falsy_body_dropped :
    (getRequestParamsWrite (newClient { accountId := .num ⟨false, 123⟩ }
        "https://h/v1/accounts/123") "/players" (.num ⟨false, 0⟩)).body
      ≠ some (.num ⟨false, 0⟩) ∧
    (getRequestParamsWrite (newClient { accountId := .num ⟨false, 123⟩ }
        "https://h/v1/accounts/123") "/players" (.str "")).body = none ∧
    (getRequestParamsWrite (newClient { accountId := .num ⟨false, 123⟩ }
        "https://h/v1/accounts/123") "/players" (.bool false)).body = none ∧
    (getRequestParamsWrite (newClient { accountId := .num ⟨false, 123⟩ }
        "https://h/v1/accounts/123") "/players" .null).body = none := by
  refine ⟨by decide, by decide, by decide, by decide⟩

/-- C8 (amended): for every path `p` and every body value `d` that is truthy (not
`undefined`, `null`, `false`, `0` or `''`), `getRequestParamsWrite(p, d)` has
`body = d`; for a falsy `d`, and when no body is supplied, the descriptor has no
body field; in every case its `url`, its `strictSSL` flag and every header other
than `content-type` equal those of `getRequestParamsRead(p)`, and `content-type`
is `application/json`. -/
theorem C8_write_descriptor (c : Client) (p : String) (d : JsVal) :
    (getRequestParamsWrite c p d).body = (if d.truthy = true then some d else none) ∧
    (getRequestParamsWrite c p .undefined).body = none ∧
    (getRequestParamsWrite c p d).url = (getRequestParamsRead c p).url ∧
    (getRequestParamsWrite c p d).strictSSL = (getRequestParamsRead c p).strictSSL ∧
    (∀ k : String, k ≠ "content-type" →
      objGet (getRequestParamsWrite c p d).headers k
        = objGet (getRequestParamsRead c p).headers k) ∧
    objGet (getRequestParamsWrite c p d).headers "content-type" = some "application/json" := by
  refine ⟨write_body c p d, by rw [write_body]; rfl, write_url c p d, write_strictSSL c p d,
    fun k hk => ?_, ?_⟩
  · rw [write_headers, objGet_objSet_other _ _ _ _ hk]
  · rw [write_headers, objGet_objSet_same]

theorem requests_player_config_get {E R : Type} (c : Client) (playerId branch : JsVal)
    (pid text : String) (hp : playerId.toJsString = .ok pid)
    (hbr : (branch.orElse (.str "")).toJsString = .ok text)
    (hh : objGet c.customHeaders.props "toString" = none) :
    requests (player.config.get c playerId branch : Js E R Unit).steps
      = [(Verb.get, getRequestParamsRead c ("/players/" ++ pid ++ "/configuration/" ++ text))] := by
  simp [player.config.get, Js.bind_eq, Js.pure_eq, Js.lift_bind, Js.out_bind, requests,
    tail_requests _ (requests_logCurlRequest _ _ _ _ _), Js.request, log_headers_ok, hh, hp, hbr]

theorem requests_embed_config_get_omitted {E R : Type} (c : Client)
    (playerId embedId branch : JsVal) (pid eid : String) (hp : playerId.toJsString = .ok pid)
    (he : embedId.toJsString = .ok eid) (hbr : branch.truthy = false) :
    requests (embed.config.get c playerId embedId branch : Js E R Unit).steps
      = [(Verb.get, getRequestParamsRead c
          ("/players/" ++ pid ++ "/embeds/" ++ eid ++ "/configuration"))] := by
  simp [embed.config.get, Js.bind_eq, Js.pure_eq, Js.lift_bind, Js.ok_bind, Js.out_bind,
    requests, tail_requests _ (requests_logCurlRequest _ _ _ _ _), Js.request, log_null_ok,
    hp, he, hbr]

theorem requests_embed_config_get_given {E R : Type} (c : Client)
    (playerId embedId branch : JsVal) (pid eid text : String)
    (hp : playerId.toJsString = .ok pid) (he : embedId.toJsString = .ok eid)
    (hbr : branch.truthy = true) (htext : branch.toJsString = .ok text) :
    requests (embed.config.get c playerId embedId branch : Js E R Unit).steps
      = [(Verb.get, getRequestParamsRead c
          ("/players/" ++ pid ++ "/embeds/" ++ eid ++ "/configuration" ++ ("/" ++ text)))] := by
  simp [embed.config.get, Js.bind_eq, Js.pure_eq, Js.lift_bind, Js.ok_bind, Js.out_bind,
    requests, tail_requests _ (requests_logCurlRequest _ _ _ _ _), Js.request, log_null_ok,
    hp, he, hbr, htext]

/-- C9 (counterexample): with a custom header `toString` registered,
`player.config.get('p1')` throws `TypeError` while the curl line is built and
requests nothing; and for a `playerId` that is an object with an own property
`toString`, both `player.config.get` and `embed.config.get` throw while the path
is built. -/
theorem C9_counterexample_nothing_requested :
    requests (player.config.get
        { apiInfo := { accountId := .str "123" }, url := "https://h/v1/accounts/123",
          customHeaders := { length := 0, props := [("toString", "t")] } }
        (.str "p1") .undefined : Js Unit Unit Unit).steps = [] ∧
    (player.config.get
        { apiInfo := { accountId := .str "123" }, url := "https://h/v1/accounts/123",
          customHeaders := { length := 0, props := [("toString", "t")] } }
        (.str "p1") .undefined : Js Unit Unit Unit).result
      = .error "TypeError: Cannot convert object to primitive value" ∧
    requests (player.config.get (newClient { accountId := .str "123" } "https://h/v1/accounts/123")
        (.obj [("toString", "x")]) .undefined : Js Unit Unit Unit).steps = [] ∧
    requests (embed.config.get (newClient { accountId := .str "123" } "https://h/v1/accounts/123")
        (.obj [("toString", "x")]) (.str "e1") .undefined : Js Unit Unit Unit).steps = [] := by
  refine ⟨by decide, rfl, by decide, by decide⟩

/-- C9 (amended): for every `playerId` and `embedId` whose string conversion does
not throw (with results `pid` and `eid`): when the branch is omitted
(`undefined`, `null` or `''`), `embed.config.get` requests the path
`'/players/' + pid + '/embeds/' + eid + '/configuration'`, without a trailing
slash, and, when no custom header named `toString` is registered,
`player.config.get` requests `'/players/' + pid + '/configuration/'`, with a
trailing slash; for every non-empty branch `b` both append `'/' + b` after
`configuration` (`player.config.get` under the same condition on the custom
headers). -/
theorem C9_config_get_branch_paths {E R : Type} (c : Client) (playerId embedId : JsVal)
    (pid eid : String) (hp : playerId.toJsString = .ok pid) (he : embedId.toJsString = .ok eid)
    (b : String) (hb : b ≠ "") :
    (objGet c.customHeaders.props "toString" = none →
      (∀ branch : JsVal, branch = .undefined ∨ branch = .null ∨ branch = .str "" →
        requests (player.config.get c playerId branch : Js E R Unit).steps
          = [(Verb.get, getRequestParamsRead c ("/players/" ++ pid ++ "/configuration/"))]) ∧
      requests (player.config.get c playerId (.str b) : Js E R Unit).steps
        = [(Verb.get, getRequestParamsRead c
            ("/players/" ++ pid ++ "/configuration" ++ ("/" ++ b)))]) ∧
    (∀ branch : JsVal, branch = .undefined ∨ branch = .null ∨ branch = .str "" →
      requests (embed.config.get c playerId embedId branch : Js E R Unit).steps
        = [(Verb.get, getRequestParamsRead c
            ("/players/" ++ pid ++ "/embeds/" ++ eid ++ "/configuration"))]) ∧
    requests (embed.config.get c playerId embedId (.str b) : Js E R Unit).steps
      = [(Verb.get, getRequestParamsRead c
          ("/players/" ++ pid ++ "/embeds/" ++ eid ++ "/configuration" ++ ("/" ++ b)))] := by
  have ht : (JsVal.str b).truthy = true := by simp [JsVal.truthy, hb]
  refine ⟨fun hh => ⟨?_, ?_⟩, ?_, ?_⟩
  · rintro branch (rfl | rfl | rfl)
    · rw [requests_player_config_get c playerId .undefined pid "" hp rfl hh,
        String.append_empty]
    · rw [requests_player_config_get c playerId .null pid "" hp rfl hh, String.append_empty]
    · rw [requests_player_config_get c playerId (.str "") pid "" hp rfl hh,
        String.append_empty]
  · rw [requests_player_config_get c playerId _ pid b hp (by rw [truthy_orElse _ ht]; rfl) hh,
      configuration_slash]
  · rintro branch (rfl | rfl | rfl) <;>
      exact requests_embed_config_get_omitted c playerId embedId _ pid eid hp he rfl
  · exact requests_embed_config_get_given c playerId embedId _ pid eid b hp he ht rfl

/-- Witness of C9: branch `preview` of player `p1` and embed `e1`. -/
theorem C9_config_get_branch_paths_witness :
    requests (player.config.get (newClient { accountId := .str "123" } "https://h/v1/accounts/123")
        (.str "p1") (.str "preview") : Js Unit Unit Unit).steps
      = [(Verb.get, getRequestParamsRead
          (newClient { accountId := .str "123" } "https://h/v1/accounts/123")
          ("/players/" ++ "p1" ++ "/configuration" ++ ("/" ++ "preview")))] ∧
    requests (embed.config.get (newClient { accountId := .str "123" } "https://h/v1/accounts/123")
        (.str "p1") (.num ⟨false, 7⟩) .undefined : Js Unit Unit Unit).steps
      = [(Verb.get, getRequestParamsRead
          (newClient { accountId := .str "123" } "https://h/v1/accounts/123")
          ("/players/" ++ "p1" ++ "/embeds/" ++ "7" ++ "/configuration"))] :=
  ⟨((C9_config_get_branch_paths (E := Unit) (R := Unit)
      (newClient { accountId := .str "123" } "https://h/v1/accounts/123")
      (.str "p1") (.num ⟨false, 7⟩) "p1" "7" rfl rfl "preview" (by decide)).1 rfl).2,
    (C9_config_get_branch_paths (E := Unit) (R := Unit)
      (newClient { accountId := .str "123" } "https://h/v1/accounts/123")
      (.str "p1") (.num ⟨false, 7⟩) "p1" "7" rfl rfl "preview" (by decide)).2.1 .undefined
      (Or.inl rfl)⟩

/-! ## Custom headers -/

theorem headers_read_lookup (c : Client) (path k : String) :
    objGet (getRequestParamsRead c path).headers k
      = if k = "Authorization" ∧ (optVal c.apiInfo.accessToken).truthy = true then
          some ("Bearer " ++ optStr c.apiInfo.accessToken)
        else objGet c.customHeaders.props k := by
  by_cases ht : (optVal c.apiInfo.accessToken).truthy = true
  · by_cases hk : k = "Authorization"
    · subst hk
      simp [getRequestParamsRead, ht, objGet_objSet_same]
    · rw [if_neg (fun h => hk h.1)]
      exact headers_read_other c path k hk
  · rw [if_neg (fun h => ht h.2)]
    exact headers_read_no_token c path k (by simpa using ht)

theorem headers_write_lookup (c : Client) (path k : String) (data : JsVal) :
    objGet (getRequestParamsWrite c path data).headers k
      = if k = "content-type" then some "application/json"
        else objGet (getRequestParamsRead c path).headers k := by
  rw [write_headers]
  by_cases hk : k = "content-type"
  · subst hk
    rw [if_pos rfl, objGet_objSet_same]
  · rw [if_neg hk, objGet_objSet_other _ _ _ _ hk]

theorem addCustomHeader_plain_key (toLength : String → Option Nat) (c : Client) (k v : String)
    (hlen : k ≠ "length") (hproto : k ≠ "__proto__") :
    ∃ c1 : Client, addCustomHeader toLength c k v = .ok c1 ∧ c1.apiInfo = c.apiInfo ∧
      c1.customHeaders.props = objSet c.customHeaders.props k v := by
  simp [addCustomHeader, arraySet, hlen, hproto]

theorem addCustomHeader_other_key (toLength : String → Option Nat) (c : Client) (j w : String)
    (hlen : j ≠ "length") :
    ∃ c1 : Client, addCustomHeader toLength c j w = .ok c1 ∧ c1.apiInfo = c.apiInfo ∧
      ∀ k : String, k ≠ j → objGet c1.customHeaders.props k = objGet c.customHeaders.props k := by
  by_cases hproto : j = "__proto__"
  · subst hproto
    exact ⟨c, by simp [addCustomHeader, arraySet], rfl, fun _ _ => rfl⟩
  · obtain ⟨c1, h1, h2, h3⟩ := addCustomHeader_plain_key toLength c j w hlen hproto
    exact ⟨c1, h1, h2, fun k hk => by rw [h3, objGet_objSet_other _ _ _ _ hk]⟩

theorem descriptors_of_same_lookup (c c1 : Client) (k : String) (path : String) (data : JsVal)
    (hinfo : c1.apiInfo = c.apiInfo)
    (hget : objGet c1.customHeaders.props k = objGet c.customHeaders.props k) :
    objGet (getRequestParamsRead c1 path).headers k
        = objGet (getRequestParamsRead c path).headers k ∧
      objGet (getRequestParamsWrite c1 path data).headers k
        = objGet (getRequestParamsWrite c path data).headers k := by
  have hr : objGet (getRequestParamsRead c1 path).headers k
      = objGet (getRequestParamsRead c path).headers k := by
    rw [headers_read_lookup, headers_read_lookup, hinfo, hget]
  exact ⟨hr, by rw [headers_write_lookup, headers_write_lookup, hr]⟩

theorem descriptors_of_lookup (c : Client) (k v : String) (path : String) (data : JsVal)
    (hget : objGet c.customHeaders.props k = some v)
    (hauth : k = "Authorization" → (optVal c.apiInfo.accessToken).truthy = false) :
    objGet (getRequestParamsRead c path).headers k = some v ∧
      (k ≠ "content-type" → objGet (getRequestParamsWrite c path data).headers k = some v) := by
  have hr : objGet (getRequestParamsRead c path).headers k = some v := by
    rw [headers_read_lookup, if_neg, hget]
    rintro ⟨hk, ht⟩
    rw [hauth hk] at ht
    exact absurd ht (by decide)
  exact ⟨hr, fun hct => by rw [headers_write_lookup, if_neg hct, hr]⟩

/-- C6 (counterexample): with a token configured, a registered `Authorization`
header is replaced by the bearer header; a registered `content-type` is replaced
by `application/json` in a write descriptor; the keys `__proto__` and `length`
register no header; and setting `length` removes the header registered under the
key `0`. -/
theorem C6_counterexample_header_not_applied :
    (∃ c1 : Client,
      addCustomHeader decimalLength
        (newClient { accountId := .num ⟨false, 123⟩, accessToken := some "tok" }
          "https://h/v1/accounts/123")
        "Authorization" "Basic dXNlcjpzZWNyZXQ=" = .ok c1 ∧
      objGet (getRequestParamsRead c1 "/players").headers "Authorization"
        = some "Bearer tok") ∧
    (∃ c1 : Client,
      addCustomHeader decimalLength (newClient { accountId := .num ⟨false, 123⟩ }
          "https://h/v1/accounts/123")
        "content-type" "text/plain" = .ok c1 ∧
      objGet (getRequestParamsWrite c1 "/players" (.str "x")).headers "content-type"
        = some "application/json") ∧
    (∃ c1 : Client,
      addCustomHeader decimalLength (newClient { accountId := .num ⟨false, 123⟩ }
          "https://h/v1/accounts/123")
        "__proto__" "x" = .ok c1 ∧
      objGet (getRequestParamsRead c1 "/players").headers "__proto__" = none) ∧
    (∃ c1 : Client,
      addCustomHeader decimalLength (newClient { accountId := .num ⟨false, 123⟩ }
          "https://h/v1/accounts/123")
        "length" "5" = .ok c1 ∧
      objGet (getRequestParamsRead c1 "/players").headers "length" = none) ∧
    (∃ c1 c2 : Client,
      addCustomHeader decimalLength (newClient { accountId := .num ⟨false, 123⟩ }
          "https://h/v1/accounts/123") "0" "a" = .ok c1 ∧
      addCustomHeader decimalLength c1 "length" "0" = .ok c2 ∧
      objGet (getRequestParamsRead c1 "/players").headers "0" = some "a" ∧
      objGet (getRequestParamsRead c2 "/players").headers "0" = none) := by
  refine ⟨⟨_, rfl, by decide⟩, ⟨_, rfl, by decide⟩, ⟨_, rfl, by decide⟩, ⟨_, rfl, by decide⟩,
    ⟨_, _, rfl, rfl, by decide, by decide⟩⟩

/-- C6 (amended): for every key `k` other than `length` and `__proto__`, every
value `v` and every client state, `addCustomHeader(k, v)` succeeds and afterwards
every descriptor built by `getRequestParamsRead` maps `k` to `v`, unless `k` is
`Authorization` and a token is configured, and every descriptor built by
`getRequestParamsWrite` does so too, unless `k` is that `Authorization` or
`content-type`; this stays so after a later `addCustomHeader` of another key
(other than `length`), and a later `addCustomHeader(k, v2)` makes it `v2`; every
other header, registered or not, is the same before and after the call. -/
theorem C6_custom_header_applies (toLength : String → Option Nat) (c : Client) (k v : String)
    (hlen : k ≠ "length") (hproto : k ≠ "__proto__")
    (hauth : k = "Authorization" → (optVal c.apiInfo.accessToken).truthy = false) :
    ∃ c1 : Client, addCustomHeader toLength c k v = .ok c1 ∧
      (∀ (path : String) (data : JsVal),
        objGet (getRequestParamsRead c1 path).headers k = some v ∧
        (k ≠ "content-type" →
          objGet (getRequestParamsWrite c1 path data).headers k = some v)) ∧
      (∀ j w : String, j ≠ k → j ≠ "length" →
        ∃ c2 : Client, addCustomHeader toLength c1 j w = .ok c2 ∧
          ∀ (path : String) (data : JsVal),
            objGet (getRequestParamsRead c2 path).headers k = some v ∧
            (k ≠ "content-type" →
              objGet (getRequestParamsWrite c2 path data).headers k = some v)) ∧
      (∀ v2 : String,
        ∃ c2 : Client, addCustomHeader toLength c1 k v2 = .ok c2 ∧
          ∀ (path : String) (data : JsVal),
            objGet (getRequestParamsRead c2 path).headers k = some v2 ∧
            (k ≠ "content-type" →
              objGet (getRequestParamsWrite c2 path data).headers k = some v2)) ∧
      (∀ j : String, j ≠ k →
        objGet c1.customHeaders.props j = objGet c.customHeaders.props j ∧
        ∀ (path : String) (data : JsVal),
          objGet (getRequestParamsRead c1 path).headers j
            = objGet (getRequestParamsRead c path).headers j ∧
          objGet (getRequestParamsWrite c1 path data).headers j
            = objGet (getRequestParamsWrite c path data).headers j) := by
  obtain ⟨c1, hc1, hinfo1, hprops1⟩ := addCustomHeader_plain_key toLength c k v hlen hproto
  have hget1 : objGet c1.customHeaders.props k = some v := by
    rw [hprops1, objGet_objSet_same]
  have hauth1 : k = "Authorization" → (optVal c1.apiInfo.accessToken).truthy = false := by
    rw [hinfo1]; exact hauth
  refine ⟨c1, hc1, fun path data => descriptors_of_lookup c1 k v path data hget1 hauth1,
    ?_, ?_, ?_⟩
  · intro j w hjk hjlen
    obtain ⟨c2, hc2, hinfo2, hframe2⟩ := addCustomHeader_other_key toLength c1 j w hjlen
    refine ⟨c2, hc2, fun path data => descriptors_of_lookup c2 k v path data ?_ ?_⟩
    · rw [hframe2 k (Ne.symm hjk), hget1]
    · rw [hinfo2]; exact hauth1
  · intro v2
    obtain ⟨c2, hc2, hinfo2, hprops2⟩ := addCustomHeader_plain_key toLength c1 k v2 hlen hproto
    refine ⟨c2, hc2, fun path data => descriptors_of_lookup c2 k v2 path data ?_ ?_⟩
    · rw [hprops2, objGet_objSet_same]
    · rw [hinfo2]; exact hauth1
  · intro j hj
    have hsame : objGet c1.customHeaders.props j = objGet c.customHeaders.props j := by
      rw [hprops1, objGet_objSet_other _ _ _ _ hj]
    exact ⟨hsame, fun path data => descriptors_of_same_lookup c c1 j path data hinfo1 hsame⟩

/-- Witness of C6: header `x-trace` registered on a client that has a token and a
header `accept`. -/
theorem C6_custom_header_applies_witness :
    ∃ c1 : Client,
      addCustomHeader decimalLength
        { apiInfo := { accountId := .num ⟨false, 123⟩, accessToken := some "tok" }
          url := "https://h/v1/accounts/123"
          customHeaders := { length := 0, props := [("accept", "text/html")] } }
        "x-trace" "1" = .ok c1 ∧
      objGet (getRequestParamsRead c1 "/players").headers "x-trace" = some "1" ∧
      objGet (getRequestParamsRead c1 "/players").headers "accept" = some "text/html" := by
  obtain ⟨c1, hc1, hk, -, -, hframe⟩ :=
    C6_custom_header_applies decimalLength
      { apiInfo := { accountId := .num ⟨false, 123⟩, accessToken := some "tok" }
        url := "https://h/v1/accounts/123"
        customHeaders := { length := 0, props := [("accept", "text/html")] } }
      "x-trace" "1" (by decide) (by decide) (fun h => absurd h (by decide))
  refine ⟨c1, hc1, (hk "/players" .undefined).1, ?_⟩
  rw [((hframe "accept" (by decide)).2 "/players" .undefined).1]
  decide


/-! ## Lemmas on the account URL -/

theorem splitSlash_of_no_slash (s : List Char) (h : '/' ∉ s) : splitSlash s = [s] := by
  induction s with
  | nil => rfl
  | cons c s ih =>
    simp only [List.mem_cons, not_or] at h
    have hc : c ≠ '/' := fun e => h.1 e.symm
    simp [splitSlash, hc, ih h.2]

theorem splitSlash_append_slash (s rest : List Char) (h : '/' ∉ s) :
    splitSlash (s ++ '/' :: rest) = s :: splitSlash rest := by
  induction s with
  | nil => simp [splitSlash]
  | cons c s ih =>
    simp only [List.mem_cons, not_or] at h
    have hc : c ≠ '/' := fun e => h.1 e.symm
    simp [splitSlash, hc, ih h.2]

theorem doubleSlashCount_cons_of_ne (c : Char) (rest : List Char) (hc : c ≠ '/') :
    doubleSlashCount (c :: rest) = doubleSlashCount rest := by
  cases rest with
  | nil => rfl
  | cons d rest => simp [doubleSlashCount, hc]

theorem doubleSlashCount_append_of_no_slash (s rest : List Char) (h : '/' ∉ s) :
    doubleSlashCount (s ++ rest) = doubleSlashCount rest := by
  induction s with
  | nil => rfl
  | cons c s ih =>
    simp only [List.mem_cons, not_or] at h
    rw [List.cons_append, doubleSlashCount_cons_of_ne _ _ (fun e => h.1 e.symm), ih h.2]

theorem doubleSlashCount_slash_append (s rest : List Char) (h : '/' ∉ s) (hs : s ≠ []) :
    doubleSlashCount ('/' :: (s ++ rest)) = doubleSlashCount rest := by
  cases s with
  | nil => exact absurd rfl hs
  | cons c s =>
    simp only [List.mem_cons, not_or] at h
    have hc : c ≠ '/' := fun e => h.1 e.symm
    rw [List.cons_append]
    simp only [doubleSlashCount, hc, and_false, if_false, Nat.zero_add]
    rw [doubleSlashCount_cons_of_ne _ _ hc, doubleSlashCount_append_of_no_slash _ _ h.2]

theorem segmentChar_ne_slash (c : Char) (h : segmentChar c = true) : c ≠ '/' := by
  rintro rfl
  exact absurd h (by decide)

theorem plainSegment_facts (s : String) (h : plainSegment s = true) :
    s.data ≠ [] ∧ s.data ≠ ['.'] ∧ s.data ≠ ['.', '.'] ∧ '/' ∉ s.data ∧
      ∀ c ∈ s.data, segmentChar c = true := by
  simp only [plainSegment, Bool.and_eq_true, decide_eq_true_eq, List.all_eq_true] at h
  obtain ⟨⟨⟨h1, h2⟩, h3⟩, h4⟩ := h
  exact ⟨h1, h2, h3, fun hm => segmentChar_ne_slash _ (h4 _ hm) rfl, h4⟩

theorem head_ne_slash (s rest : List Char) (h : '/' ∉ s) (hs : s ≠ []) :
    (s ++ rest).head? ≠ some '/' := by
  cases s with
  | nil => exact absurd rfl hs
  | cons c s =>
    simp only [List.mem_cons, not_or] at h
    simpa using fun e => h.1 e.symm

theorem getLast_ne_slash (pre s : List Char) (h : '/' ∉ s) (hs : s ≠ []) :
    (pre ++ s).getLast? ≠ some '/' := by
  rw [List.getLast?_append_of_ne_nil _ hs, List.getLast?_eq_getLast _ hs]
  intro e
  have hm := List.getLast_mem hs
  rw [Option.some.inj e] at hm
  exact h hm

theorem normalizeSegments_three (V M A : List Char)
    (hV : V ≠ [] ∧ V ≠ ['.'] ∧ V ≠ ['.', '.'])
    (hM : M ≠ [] ∧ M ≠ ['.'] ∧ M ≠ ['.', '.'])
    (hA : A ≠ [] ∧ A ≠ ['.'] ∧ A ≠ ['.', '.']) (allow : Bool) :
    normalizeSegments allow [V, M, A] [] = [V, M, A] := by
  simp [normalizeSegments, hV.1, hV.2.1, hV.2.2, hM.1, hM.2.1, hM.2.2, hA.1, hA.2.1, hA.2.2]

theorem pathNormalize_three (V M A : List Char)
    (hV : V ≠ [] ∧ V ≠ ['.'] ∧ V ≠ ['.', '.'] ∧ '/' ∉ V)
    (hM : M ≠ [] ∧ M ≠ ['.'] ∧ M ≠ ['.', '.'] ∧ '/' ∉ M)
    (hA : A ≠ [] ∧ A ≠ ['.'] ∧ A ≠ ['.', '.'] ∧ '/' ∉ A) :
    pathNormalize (joinSlash [V, M, A]) = joinSlash [V, M, A] := by
  have hsplit : splitSlash (joinSlash [V, M, A]) = [V, M, A] := by
    simp only [joinSlash]
    rw [splitSlash_append_slash _ _ hV.2.2.2, splitSlash_append_slash _ _ hM.2.2.2,
      splitSlash_of_no_slash _ hA.2.2.2]
  have habs : (joinSlash [V, M, A]).head? ≠ some '/' := by
    simp only [joinSlash]
    exact head_ne_slash _ _ hV.2.2.2 hV.1
  have htrail : (joinSlash [V, M, A]).getLast? ≠ some '/' := by
    have : joinSlash [V, M, A] = (V ++ '/' :: (M ++ ['/'])) ++ A := by simp [joinSlash]
    rw [this]
    exact getLast_ne_slash _ _ hA.2.2.2 hA.1
  have hne : joinSlash [V, M, A] ≠ [] := by
    simp [joinSlash, hV.1]
  unfold pathNormalize
  rw [if_neg hne]
  simp only [hsplit, habs, htrail, decide_False, Bool.not_false, if_false,
    normalizeSegments_three V M A ⟨hV.1, hV.2.1, hV.2.2.1⟩ ⟨hM.1, hM.2.1, hM.2.2.1⟩
      ⟨hA.1, hA.2.1, hA.2.2.1⟩ true, if_neg hne, List.nil_append, List.append_nil]

theorem pathJoin_plain (v a : String) (hv : plainSegment v = true)
    (ha : plainSegment a = true) :
    pathJoin [v, "accounts", a] = v ++ "/accounts/" ++ a := by
  have hV := plainSegment_facts v hv
  have hA := plainSegment_facts a ha
  have hM := plainSegment_facts "accounts" (by decide)
  have hv0 : v ≠ "" := fun e => hV.1 (by rw [e])
  have ha0 : a ≠ "" := fun e => hA.1 (by rw [e])
  have hfilter : ([v, "accounts", a].filter fun s => decide (s ≠ "")) = [v, "accounts", a] := by
    simp [List.filter, hv0, ha0]
  unfold pathJoin
  rw [hfilter]
  show String.mk (pathNormalize (joinSlash [v.data, ("accounts" : String).data, a.data])) = _
  rw [pathNormalize_three _ _ _ ⟨hV.1, hV.2.1, hV.2.2.1, hV.2.2.2.1⟩
    ⟨hM.1, hM.2.1, hM.2.2.1, hM.2.2.2.1⟩ ⟨hA.1, hA.2.1, hA.2.2.1, hA.2.2.2.1⟩]
  apply String.ext
  simp [joinSlash, String.data_append]

theorem urlParse_https (a : List Char) (hok : authorityOk a = true)
    (hlow : a.map Char.toLower = a) (hno : a.all (fun c => c ≠ '/') = true) :
    urlParse ('h' :: 't' :: 't' :: 'p' :: 's' :: ':' :: '/' :: '/' :: a)
      = some { protocol := ['h', 't', 't', 'p', 's', ':'], host := a, pathname := ['/'] } := by
  have htake : a.takeWhile (fun c => !decide (c = '/')) = a := by
    rw [List.takeWhile_eq_self_iff]
    simpa using hno
  have hdrop : a.dropWhile (fun c => !decide (c = '/')) = [] := by
    rw [List.dropWhile_eq_nil_iff]
    simpa using hno
  have e1 : Char.isAlpha 'h' = true := by decide
  have e2 : Char.isAlpha 't' = true := by decide
  have e3 : Char.isAlpha 'p' = true := by decide
  have e4 : Char.isAlpha 's' = true := by decide
  have e5 : Char.isAlpha ':' = false := by decide
  have l1 : Char.toLower 'h' = 'h' := by decide
  have l2 : Char.toLower 't' = 't' := by decide
  have l3 : Char.toLower 'p' = 'p' := by decide
  have l4 : Char.toLower 's' = 's' := by decide
  simp [urlParse, List.takeWhile, List.dropWhile, e1, e2, e3, e4, e5, l1, l2, l3, l4,
    htake, hdrop, hok, hlow]

theorem urlParse_http (a : List Char) (hok : authorityOk a = true)
    (hlow : a.map Char.toLower = a) (hno : a.all (fun c => c ≠ '/') = true) :
    urlParse ('h' :: 't' :: 't' :: 'p' :: ':' :: '/' :: '/' :: a)
      = some { protocol := ['h', 't', 't', 'p', ':'], host := a, pathname := ['/'] } := by
  have htake : a.takeWhile (fun c => !decide (c = '/')) = a := by
    rw [List.takeWhile_eq_self_iff]
    simpa using hno
  have hdrop : a.dropWhile (fun c => !decide (c = '/')) = [] := by
    rw [List.dropWhile_eq_nil_iff]
    simpa using hno
  have e1 : Char.isAlpha 'h' = true := by decide
  have e2 : Char.isAlpha 't' = true := by decide
  have e3 : Char.isAlpha 'p' = true := by decide
  have e5 : Char.isAlpha ':' = false := by decide
  have l1 : Char.toLower 'h' = 'h' := by decide
  have l2 : Char.toLower 't' = 't' := by decide
  have l3 : Char.toLower 'p' = 'p' := by decide
  simp [urlParse, List.takeWhile, List.dropWhile, e1, e2, e3, e5, l1, l2, l3,
    htake, hdrop, hok, hlow]

theorem urlResolve_origin (source relative : String) (P H V M A : List Char)
    (hparse : urlParse source.data = some { protocol := P, host := H, pathname := ['/'] })
    (hrel : relative.data = joinSlash [V, M, A])
    (hV : V ≠ [] ∧ V ≠ ['.'] ∧ V ≠ ['.', '.'] ∧ '/' ∉ V ∧ ∀ c ∈ V, segmentChar c = true)
    (hM : M ≠ [] ∧ M ≠ ['.'] ∧ M ≠ ['.', '.'] ∧ '/' ∉ M ∧ ∀ c ∈ M, segmentChar c = true)
    (hA : A ≠ [] ∧ A ≠ ['.'] ∧ A ≠ ['.', '.'] ∧ '/' ∉ A ∧ ∀ c ∈ A, segmentChar c = true) :
    urlResolve source relative
      = some (String.mk (P ++ ('/' :: '/' :: H) ++ ('/' :: joinSlash [V, M, A]))) := by
  have hsplit : splitSlash (joinSlash [V, M, A]) = [V, M, A] := by
    simp only [joinSlash]
    rw [splitSlash_append_slash _ _ hV.2.2.2.1, splitSlash_append_slash _ _ hM.2.2.2.1,
      splitSlash_of_no_slash _ hA.2.2.2.1]
  have habs : (joinSlash [V, M, A]).head? ≠ some '/' := by
    simp only [joinSlash]
    exact head_ne_slash _ _ hV.2.2.2.1 hV.1
  have hne : joinSlash [V, M, A] ≠ [] := by
    simp [joinSlash, hV.1]
  have hchars : (joinSlash [V, M, A]).all pathChar = true := by
    simp only [joinSlash, List.all_append, List.all_cons, Bool.and_eq_true, List.all_eq_true]
    refine ⟨fun c hc => ?_, by decide, fun c hc => ?_, by decide, fun c hc => ?_⟩
    · simp [pathChar, hV.2.2.2.2 c hc]
    · simp [pathChar, hM.2.2.2.2 c hc]
    · simp [pathChar, hA.2.2.2.2 c hc]
  have htake : (joinSlash [V, M, A]).take 2 ≠ ['/', '/'] := by
    intro e
    apply habs
    have := congrArg List.head? e
    rw [List.head?_take] at this
    simpa using this
  have hroot : splitSlash ['/'] = [[], []] := by decide
  have hscan : dropDotSegments [A, M, V, []] 0 [] = ([[], V, M, A], 0) := by
    simp [dropDotSegments, hV.2.1, hV.2.2.1, hM.2.1, hM.2.2.1, hA.2.1, hA.2.2.1]
  have hjoin : joinSlash [[], V, M, A] = '/' :: joinSlash [V, M, A] := by
    simp [joinSlash]
  unfold urlResolve
  simp only [hparse, hrel, hne, hchars, htake, false_or, Bool.true_eq_false, if_false]
  simp only [hsplit, habs, hroot, hA.1, hA.2.1, hA.2.2.1]
  simp [hscan, hjoin, hA.1, hA.2.1, hA.2.2.1]

theorem digitChar_isDigit (m : Nat) (h : m < 10) : (Nat.digitChar m).isDigit = true := by
  interval_cases m <;> decide

theorem toDigitsCore_digits (fuel : Nat) :
    ∀ (n : Nat) (ds : List Char), (∀ c ∈ ds, c.isDigit = true) →
      ∀ c ∈ Nat.toDigitsCore 10 fuel n ds, c.isDigit = true := by
  induction fuel with
  | zero => intro n ds hds c hc; exact hds c (by simpa [Nat.toDigitsCore] using hc)
  | succ fuel ih =>
    intro n ds hds c hc
    have hd : ∀ x ∈ Nat.digitChar (n % 10) :: ds, x.isDigit = true := by
      intro x hx
      rcases List.mem_cons.mp hx with rfl | hx
      · exact digitChar_isDigit _ (Nat.mod_lt _ (by decide))
      · exact hds x hx
    unfold Nat.toDigitsCore at hc
    simp only at hc
    split at hc
    · exact hd c hc
    · exact ih _ _ hd c hc

theorem toDigitsCore_ne_nil (fuel n : Nat) (ds : List Char) :
    Nat.toDigitsCore 10 (fuel + 1) n ds ≠ [] := by
  induction fuel generalizing n ds with
  | zero =>
    unfold Nat.toDigitsCore
    simp only
    split
    · simp
    · simp [Nat.toDigitsCore]
  | succ fuel ih =>
    unfold Nat.toDigitsCore
    simp only
    split
    · simp
    · exact ih _ _

theorem repr_digits (n : Nat) :
    (Nat.repr n).data ≠ [] ∧ ∀ c ∈ (Nat.repr n).data, c.isDigit = true :=
  ⟨toDigitsCore_ne_nil n n [], fun c hc => toDigitsCore_digits (n + 1) n [] (by simp) c hc⟩

theorem plainSegment_of_digits (sign digits : List Char) (hs : sign = [] ∨ sign = ['-'])
    (hne : digits ≠ []) (hd : ∀ c ∈ digits, c.isDigit = true) :
    plainSegment (String.mk (sign ++ digits)) = true := by
  have hseg : ∀ c ∈ sign ++ digits, segmentChar c = true := by
    intro c hc
    rcases List.mem_append.mp hc with h | h
    · rcases hs with rfl | rfl
      · simp at h
      · simp at h; subst h; decide
    · simp [segmentChar, Char.isAlphanum, hd c h]
  have hdot : '.' ∉ digits := fun h => absurd (hd '.' h) (by decide)
  simp only [plainSegment, Bool.and_eq_true, decide_eq_true_eq, List.all_eq_true]
  refine ⟨⟨⟨?_, ?_⟩, ?_⟩, hseg⟩
  · simp [hne]
  · intro e
    rcases hs with rfl | rfl
    · simp at e; exact hdot (by rw [e]; simp)
    · simp at e
  · intro e
    rcases hs with rfl | rfl
    · simp at e; exact hdot (by rw [e]; simp)
    · simp at e

theorem plainSegment_jsInt (n : JsInt) : plainSegment n.toString = true := by
  unfold JsInt.toString
  split
  · decide
  · split
    · have h := plainSegment_of_digits ['-'] (Nat.repr n.magnitude.val).data (Or.inr rfl)
        (repr_digits _).1 (repr_digits _).2
      exact h
    · have h := plainSegment_of_digits [] (Nat.repr n.magnitude.val).data (Or.inl rfl)
        (repr_digits _).1 (repr_digits _).2
      exact h

theorem doubleSlashCount_origin_path (P H V M A p : List Char) (hP : '/' ∉ P)
    (hH : '/' ∉ H ∧ H ≠ []) (hV : '/' ∉ V ∧ V ≠ []) (hM : '/' ∉ M ∧ M ≠ [])
    (hA : '/' ∉ A ∧ A ≠ []) :
    doubleSlashCount (P ++ '/' :: '/' :: (H ++ '/' :: (V ++ '/' :: (M ++ '/' :: (A ++ p)))))
      = 1 + doubleSlashCount p := by
  rw [doubleSlashCount_append_of_no_slash _ _ hP]
  show (if '/' = '/' ∧ '/' = '/' then 1 else 0) + doubleSlashCount ('/' :: _) = _
  rw [if_pos ⟨rfl, rfl⟩, doubleSlashCount_slash_append _ _ hH.1 hH.2,
    doubleSlashCount_slash_append _ _ hV.1 hV.2, doubleSlashCount_slash_append _ _ hM.1 hM.2,
    doubleSlashCount_slash_append _ _ hA.1 hA.2]

theorem moduleExports_of_origin (info : ApiInfo) (P H : List Char)
    (hbase : (baseUrl info).data = P ++ '/' :: '/' :: H)
    (hparse : urlParse (baseUrl info).data
      = some { protocol := P, host := H, pathname := ['/'] })
    (hv : plainSegment (apiVersion info) = true) (ha : plainSegment (bcAccount info) = true) :
    ∃ u : String, moduleExports info = some (newClient info u) ∧
      u = baseUrl info ++ "/" ++ apiVersion info ++ "/accounts/" ++ bcAccount info ∧
      u.data = P ++ '/' :: '/' :: (H ++ '/' :: ((apiVersion info).data ++
        '/' :: (("accounts" : String).data ++ '/' :: (bcAccount info).data))) := by
  have hV := plainSegment_facts _ hv
  have hA := plainSegment_facts _ ha
  have hM := plainSegment_facts "accounts" (by decide)
  have hrel : (urlPath info).data
      = joinSlash [(apiVersion info).data, ("accounts" : String).data, (bcAccount info).data] := by
    unfold urlPath
    rw [pathJoin_plain _ _ hv ha]
    simp [joinSlash, String.data_append]
  have hurl := urlResolve_origin (baseUrl info) (urlPath info) P H _ _ _ hparse hrel hV hM hA
  refine ⟨String.mk (P ++ ('/' :: '/' :: H) ++ ('/' :: joinSlash
    [(apiVersion info).data, ("accounts" : String).data, (bcAccount info).data])), ?_, ?_, ?_⟩
  · unfold moduleExports
    rw [hurl]
  · apply String.ext
    simp [joinSlash, String.data_append, hbase]
  · simp [joinSlash]

theorem moduleExports_of_bareOrigin (info : ApiInfo) (hb : bareOrigin (baseUrl info) = true)
    (hv : plainSegment (apiVersion info) = true) (ha : plainSegment (bcAccount info) = true) :
    ∃ u : String, moduleExports info = some (newClient info u) ∧
      u = baseUrl info ++ "/" ++ apiVersion info ++ "/accounts/" ++ bcAccount info ∧
      ∀ p : List Char, doubleSlashCount (u.data ++ p) = 1 + doubleSlashCount p := by
  have hV := plainSegment_facts _ hv
  have hA := plainSegment_facts _ ha
  have hM := plainSegment_facts "accounts" (by decide)
  have hnil : authorityOk [] = false := by decide
  unfold bareOrigin at hb
  split at hb
  · rename_i a hdata
    simp only [Bool.and_eq_true, decide_eq_true_eq] at hb
    obtain ⟨⟨hok, hlow⟩, hno⟩ := hb
    have hne : a ≠ [] := by
      rintro rfl
      rw [hnil] at hok
      exact absurd hok (by decide)
    have hslash : '/' ∉ a := by
      intro hm
      have := List.all_eq_true.mp hno _ hm
      simp at this
    obtain ⟨u, h1, h2, h3⟩ := moduleExports_of_origin info ['h', 't', 't', 'p', 's', ':'] a
      (by rw [hdata]; rfl) (by rw [hdata]; exact urlParse_https a hok hlow hno) hv ha
    refine ⟨u, h1, h2, fun p => ?_⟩
    rw [h3]
    have := doubleSlashCount_origin_path ['h', 't', 't', 'p', 's', ':'] a _ _ _ p
      (by decide) ⟨hslash, hne⟩ ⟨hV.2.2.2.1, hV.1⟩ ⟨hM.2.2.2.1, hM.1⟩ ⟨hA.2.2.2.1, hA.1⟩
    simpa [List.append_assoc] using this
  · rename_i a hdata
    simp only [Bool.and_eq_true, decide_eq_true_eq] at hb
    obtain ⟨⟨hok, hlow⟩, hno⟩ := hb
    have hne : a ≠ [] := by
      rintro rfl
      rw [hnil] at hok
      exact absurd hok (by decide)
    have hslash : '/' ∉ a := by
      intro hm
      have := List.all_eq_true.mp hno _ hm
      simp at this
    obtain ⟨u, h1, h2, h3⟩ := moduleExports_of_origin info ['h', 't', 't', 'p', ':'] a
      (by rw [hdata]; rfl) (by rw [hdata]; exact urlParse_http a hok hlow hno) hv ha
    refine ⟨u, h1, h2, fun p => ?_⟩
    rw [h3]
    have := doubleSlashCount_origin_path ['h', 't', 't', 'p', ':'] a _ _ _ p
      (by decide) ⟨hslash, hne⟩ ⟨hV.2.2.2.1, hV.1⟩ ⟨hM.2.2.2.1, hM.1⟩ ⟨hA.2.2.2.1, hA.1⟩
    simpa [List.append_assoc] using this
  · exact absurd hb (by decide)

/-! ## The account URL -/

/-- C1 (counterexample): a base URL with a path loses its last path segment
(`https://example.com/api` gives `https://example.com/v1/...`); a host written
with capitals is put in lower case; a version with a trailing slash is
normalised (`v1/` gives `.../v1/accounts/...`, not `.../v1//accounts/...`); and a
resource path with an empty identifier (`embed.get('', 'e1')`, path
`/players//embeds/e1`) yields a URL with a second double slash. -/
theorem C1_counterexample_url_shape :
    (moduleExports { accountId := .str "1", baseUrl := some "https://example.com/api" }).map
        (fun c => (getRequestParamsRead c "/players").url)
      = some "https://example.com/v1/accounts/1/players" ∧
    baseUrl { accountId := .str "1", baseUrl := some "https://example.com/api" } ++ "/" ++
        apiVersion { accountId := .str "1", baseUrl := some "https://example.com/api" } ++
        "/accounts/" ++
        bcAccount { accountId := .str "1", baseUrl := some "https://example.com/api" } ++
        "/players"
      = "https://example.com/api/v1/accounts/1/players" ∧
    (moduleExports { accountId := .str "1", baseUrl := some "https://Example.COM" }).map
        (fun c => (getRequestParamsRead c "/players").url)
      = some "https://example.com/v1/accounts/1/players" ∧
    baseUrl { accountId := .str "1", baseUrl := some "https://Example.COM" } ++ "/" ++
        apiVersion { accountId := .str "1", baseUrl := some "https://Example.COM" } ++
        "/accounts/" ++
        bcAccount { accountId := .str "1", baseUrl := some "https://Example.COM" } ++
        "/players"
      = "https://Example.COM/v1/accounts/1/players" ∧
    (moduleExports { accountId := .str "1", version := some "v1/" }).map
        (fun c => (getRequestParamsRead c "/players").url)
      = some "https://players.api.brightcove.com/v1/accounts/1/players" ∧
    baseUrl { accountId := .str "1", version := some "v1/" } ++ "/" ++
        apiVersion { accountId := .str "1", version := some "v1/" } ++ "/accounts/" ++
        bcAccount { accountId := .str "1", version := some "v1/" } ++ "/players"
      = "https://players.api.brightcove.com/v1//accounts/1/players" ∧
    (moduleExports { accountId := .num ⟨false, 123⟩ }).map
        (fun c => (requests (embed.get c (.str "") (.str "e1") : Js Unit Unit Unit).steps).map
          (fun vp => (vp.2.url, doubleSlashCount vp.2.url.data)))
      = some [("https://players.api.brightcove.com/v1/accounts/123/players//embeds/e1", 2)] := by
  refine ⟨by decide, by decide, by decide, by decide, by decide, by decide, by decide⟩

/-- C1 (amended): when the base URL in force is a lower-case origin without a
path (`http://` or `https://`, a host name of plain labels in lower case, an
optional port, and nothing else, as the default
`https://players.api.brightcove.com` is), the version in force (`v1` by default)
is a plain path segment, and the account identifier is a number (an integer of
magnitude below `2^53`) or a string that is a plain path segment, then the
closure is created and, for every resource path `p` and every state of the
custom headers, the `url` of the descriptor of `getRequestParamsRead` and of
`getRequestParamsWrite` is `baseUrl + '/' + version + '/accounts/' + accountId + p`,
and its double slashes are the one of the scheme separator and those of `p`: it
has no other double slash exactly when `p` has none. -/
theorem C1_account_url (info : ApiInfo) (p : String) (data : JsVal)
    (hb : bareOrigin (baseUrl info) = true)
    (hv : plainSegment (apiVersion info) = true)
    (ha : ∀ s : String, info.accountId = .str s → plainSegment s = true) :
    ∃ c : Client, moduleExports info = some c ∧ c.apiInfo = info ∧
      (∀ headers : JsArray,
        (getRequestParamsRead { c with customHeaders := headers } p).url
          = baseUrl info ++ "/" ++ apiVersion info ++ "/accounts/" ++ bcAccount info ++ p ∧
        (getRequestParamsWrite { c with customHeaders := headers } p data).url
          = baseUrl info ++ "/" ++ apiVersion info ++ "/accounts/" ++ bcAccount info ++ p ∧
        doubleSlashCount (getRequestParamsRead { c with customHeaders := headers } p).url.data
          = 1 + doubleSlashCount p.data) ∧
      (info.baseUrl = none ∨ info.baseUrl = some "" →
        baseUrl info = "https://players.api.brightcove.com") ∧
      (info.version = none ∨ info.version = some "" → apiVersion info = "v1") ∧
      (∀ n : JsInt, info.accountId = .num n → bcAccount info = n.toString) ∧
      (∀ s : String, info.accountId = .str s → bcAccount info = s) := by
  have hacc : plainSegment (bcAccount info) = true := by
    unfold bcAccount
    cases hid : info.accountId with
    | num n => exact plainSegment_jsInt n
    | str s => exact ha s hid
  obtain ⟨u, hmod, hurl, hcount⟩ := moduleExports_of_bareOrigin info hb hv hacc
  refine ⟨newClient info u, hmod, rfl, fun headers => ?_, ?_, ?_, ?_, ?_⟩
  · have hread : (getRequestParamsRead { newClient info u with customHeaders := headers } p).url
        = baseUrl info ++ "/" ++ apiVersion info ++ "/accounts/" ++ bcAccount info ++ p := by
      show u ++ p = _
      rw [hurl]
    refine ⟨hread, by rw [write_url, hread], ?_⟩
    show doubleSlashCount (u ++ p).data = _
    rw [String.data_append, hcount]
  · rintro (h | h) <;> simp [baseUrl, h, optVal, JsVal.truthy, optStr]
  · rintro (h | h) <;> simp [apiVersion, h, optVal, JsVal.truthy, optStr]
  · intro n h
    simp [bcAccount, h, AccountId.toString]
  · intro s h
    simp [bcAccount, h, AccountId.toString]

/-- Witness of C1: base URL `http://localhost:8080`, version `v2` and the account
given as the string `123`, with the path of `players.list`. -/
theorem C1_account_url_witness :
    ∃ c : Client,
      moduleExports { accountId := .str "123", baseUrl := some "http://localhost:8080",
                      version := some "v2" } = some c ∧
      (getRequestParamsRead c "/players").url
        = "http://localhost:8080/v2/accounts/123/players" ∧
      doubleSlashCount (getRequestParamsRead c "/players").url.data = 1 := by
  obtain ⟨c, hmod, -, hdesc, -⟩ :=
    C1_account_url { accountId := .str "123", baseUrl := some "http://localhost:8080",
                     version := some "v2" } "/players" .undefined
      (by decide) (by decide) (fun s h => by cases h; decide)
  obtain ⟨hurl, -, hcount⟩ := hdesc c.customHeaders
  exact ⟨c, hmod, by rw [hurl]; decide, by rw [hcount]; decide⟩

end PlayerManagement
